import Mathlib

/-! # efashe-vds-api-go: session renewal of the API client

A shallow embedding of the token handling of the Go client (`api.go`, `utils.go`,
`options.go`, `types.go`), followed by theorems about it.

Conventions of the embedding.

* Mutable receiver state (`c *client`) and the outside world are passed explicitly:
  every method takes the client and a `World` and returns both (a `Step`).
* A Go run-time panic (nil dereference) is an explicit outcome, `Outcome.panic`; the
  client and world of a `Step` are then the ones reached when the panic was raised.
* A Go result pair `(*T, error)` of which exactly one component is nil at every
  `return` of the source is an `Except Error T`; the pair of `parseTokenTstamp`,
  whose time component is assigned by the caller even on error, is kept as a pair.
* Pointers that can be nil (`*url.URL`, `*http.Client`, the `Debugger` interface)
  are `Option`s, and using a nil one panics as it does in Go.
* Code of other modules (`golang-jwt`, `net/http`, `net/url`, `encoding/json`,
  `fmt`) is a parameter, the record `Lib`; theorems hold for every `Lib`.
* `time.Now()` reads the next value of a clock carried by the world.
* The world also keeps two traces that the source does not have: the requests handed
  to `cl.Do` and the invocations of `Auth` and `RefreshToken`.
-/

set_option linter.dupNamespace false
set_option linter.unusedVariables false

namespace Efashe

/-! ## Values -/

/-- An instant (`time.Time`), counted from the zero instant `time.Time{}`. -/
abbrev Time := Int

/-- The zero instant `time.Time{}`. -/
def Time.zero : Time := 0

/-- Go `t.After(u)`: `t` is strictly after `u`. -/
def Time.After (t u : Time) : Bool := decide (u < t)

/-- Go `t.IsZero()`. -/
def Time.IsZero (t : Time) : Bool := decide (t = Time.zero)

/-- Go `error` values that the client produces or passes on. -/
inductive Error where
  | ValidationError (msg : String)
  | ErrAccountNotFound
  | ErrTransactionNotFound
  | ErrAccountBlocked
  | ErrUnauthorized
  | ErrProductOutOfStock
  | ErrInsufficientBalance
  | ErrAPIDown
  /-- Result of `errors.New(msg)` at a call site of the client. -/
  | New (msg : String)
  /-- An error value made by a library (jwt, net/http, io, encoding/json). -/
  | External (msg : String)
  deriving DecidableEq, Repr

/-- Outcome of running Go code: it returns a value or it panics. -/
inductive Outcome (α : Type) where
  | ret (a : α)
  | panic
  deriving DecidableEq, Repr

/-- A `context.Context` value, seen only by the libraries. -/
structure Context where
  id : Nat
  deriving DecidableEq, Repr

/-- A `*url.URL` that is not nil, by its `String()` rendering. -/
structure URL where
  str : String
  deriving DecidableEq, Repr

/-- Go `http.Header`: keys with their values, iterated in list order. -/
abbrev Header := List (String × List String)

/-- Go `*http.Request` as built by `http.NewRequestWithContext`. -/
structure Request where
  ctx : Context
  Method : String
  URL : String
  /-- The `io.Reader` body by its content; `none` is a nil body. -/
  Body : Option String
  Header : Header
  deriving DecidableEq, Repr

/-- Go `*http.Response` as far as `httpDo` reads it. -/
structure Response where
  StatusCode : Int
  Status : String
  /-- Result of `io.ReadAll(res.Body)`. -/
  Body : Except Error String

/-- A `*http.Client` that is not nil: what `Do` answers to a request, given the
requests sent before it. -/
structure HttpClient where
  Do : List Request → Request → Except Error Response

/-- A `Debugger` that is not nil. -/
structure Debugger where
  id : Nat
  deriving DecidableEq, Repr

def StatusOK : Int := 200
def StatusAccepted : Int := 202
def StatusBadRequest : Int := 400
def StatusUnauthorized : Int := 401
def StatusForbidden : Int := 403
def StatusNotFound : Int := 404
def StatusBadGateway : Int := 502

/-- Go `const APIV2BaseURL`. -/
def APIV2BaseURL : String := "https://sb-api.efashe.com/rw/v2/"

/-- Go `http.MethodPost`. -/
def MethodPost : String := "POST"

/-- Go `http.MethodGet`. -/
def MethodGet : String := "GET"

/-! ## Response types (`types.go`) -/

structure AgencyPOP where
  POPId : String := ""
  POPName : String := ""
  POPShortCode : String := ""
  POPStatusId : String := ""
  PresenceId : String := ""
  ClassId : String := ""
  Address1Id : String := ""
  Address2Id : String := ""
  StreetAddress : String := ""
  deriving DecidableEq, Repr

structure AgencyAccount where
  AgencyId : String := ""
  AgencyName : String := ""
  AgencyShortCode : String := ""
  AgencyLevelId : String := ""
  AgencyStatusId : String := ""
  deriving DecidableEq, Repr

structure AuthData where
  AgencyPOP : AgencyPOP := {}
  AgencyAccount : AgencyAccount := {}
  AccessToken : String := ""
  RefreshToken : String := ""
  AccessTokenExpiresAt : String := ""
  RefreshTokenExpiresAt : String := ""
  deriving DecidableEq, Repr

structure AuthResp where
  Data : AuthData := {}
  deriving DecidableEq, Repr

structure RefreshTokenData where
  AccessToken : String := ""
  RefreshToken : String := ""
  ExpiresAt : String := ""
  deriving DecidableEq, Repr

structure RefreshTokenResp where
  Data : RefreshTokenData := {}
  deriving DecidableEq, Repr

structure ElectricityToken where
  Units : Float := 0
  Token : String := ""
  Toke2 : String := ""
  Toke3 : String := ""
  MeterNo : String := ""
  ReceiptNo : String := ""
  Tstamp : String := ""
  RegulatoryFees : Float := 0
  Amount : Float := 0
  Vat : Float := 0
  CustomerName : String := ""

structure ElectricityTokenResp where
  Data : List ElectricityToken := []

/-- The local `struct { ElectricityTokenResp; Msg string }` that `ElectricityTokens`
decodes into. -/
structure ElectricityTokenRes where
  ElectricityTokenResp : ElectricityTokenResp := {}
  Msg : String := ""

/-- The local `struct { AuthResp; Msg string }` that `Auth` decodes into. -/
structure AuthRes where
  AuthResp : AuthResp := {}
  Msg : String := ""
  deriving DecidableEq, Repr

/-- The local `struct { RefreshTokenResp; Msg string }` that `RefreshToken` decodes into. -/
structure RefreshTokenRes where
  RefreshTokenResp : RefreshTokenResp := {}
  Msg : String := ""
  deriving DecidableEq, Repr

/-! ## Libraries -/

/-- The claims of a parsed token as `parseTokenTstamp` reads them: the results of
the two getters, a `(*jwt.NumericDate, error)` pair each (`none` is the nil pointer). -/
structure Claims where
  GetExpirationTime : Except Error (Option Time)
  GetNotBefore : Except Error (Option Time)

/-- A `*jwt.Token`. -/
structure Token where
  Claims : Claims

/-- Functions of other modules that the client calls. -/
structure Lib where
  /-- Is `jwt.NewParser().ParseUnverified(tokenString, jwt.MapClaims{})`. -/
  ParseUnverified : String → Except Error Token
  /-- The `%q` verb of `fmt.Sprintf` on a string. -/
  Quote : String → String
  /-- Is `(*url.URL).JoinPath` with one path element. -/
  JoinPath : URL → String → URL
  /-- The error of `http.NewRequestWithContext(ctx, method, url, body)`, if any. -/
  NewRequestError : Context → String → String → Option Error
  /-- Is `textproto.CanonicalMIMEHeaderKey`. -/
  CanonicalHeaderKey : String → String
  /-- Is `json.Unmarshal(body, jsonOut)` at the type `Auth` decodes into: the value
  left in `jsonOut` and the error. -/
  UnmarshalAuth : String → AuthRes → AuthRes × Option Error
  /-- Is `json.Unmarshal(body, jsonOut)` at the type `RefreshToken` decodes into. -/
  UnmarshalRefreshToken : String → RefreshTokenRes → RefreshTokenRes × Option Error
  /-- Is `url.Parse`. -/
  ParseURL : String → Except Error URL
  /-- Is `http.DefaultClient`. -/
  DefaultClient : HttpClient
  /-- Is `strings.TrimSpace`. -/
  TrimSpace : String → String
  /-- The `%d` verb of `fmt.Sprintf` on an `int`. -/
  FormatInt : Int → String
  /-- The field `RawPath` of a parsed URL. -/
  RawPath : URL → String
  /-- Is `json.Unmarshal(body, jsonOut)` at the type `ElectricityTokens` decodes into. -/
  UnmarshalElectricityToken :
    String → ElectricityTokenRes → ElectricityTokenRes × Option Error

/-! ## Options (`options.go`) -/

/-- The implementations of the Go interface `Option`. -/
inductive ClientOption where
  | baseUrlOption (v : Option URL)
  | urlOption (v : Option URL)
  | headersOption (v : Header)
  | disableAutoUpdatingTokenOption (v : Bool)
  | customClientOption (v : Option HttpClient)
  | debugOption (v : Option Debugger)

def WithBaseURLOption (u : Option URL) : ClientOption := .baseUrlOption u

def WithURLOption (u : Option URL) : ClientOption := .urlOption u

def WithHeadersOption (headers : Header) : ClientOption := .headersOption headers

def WithDisableAutoUpdatingTokenOption (disableFlag : Bool) : ClientOption :=
  .disableAutoUpdatingTokenOption disableFlag

def WithCustomClientOption (httpClient : Option HttpClient) : ClientOption :=
  .customClientOption httpClient

def WithDebuggerOption (debugger : Option Debugger) : ClientOption := .debugOption debugger

/-! ## Client state and world -/

/-- Go `type client struct`. -/
structure client where
  apiKey : String
  apiSecret : String
  accessToken : String
  refreshToken : String
  accessTokenExpiresAt : Time
  refreshTokenExpiresAt : Time
  baseURL : Option URL
  client : Option HttpClient
  debugger : Option Debugger
  autoUpdateToken : Bool

/-- The two methods of the client that exchange credentials with the server. -/
inductive Call where
  | Auth
  | RefreshToken
  deriving DecidableEq, Repr

/-- What lies outside the client. -/
structure World where
  /-- The value of the n-th `time.Now()`. -/
  clock : Nat → Time
  /-- How many times `time.Now()` was called. -/
  reads : Nat
  /-- The requests handed to `cl.Do`, oldest first. -/
  sent : List Request
  /-- The invocations of `Auth` and `RefreshToken`, oldest first. -/
  calls : List Call
  /-- The messages handed to `c.debugger.Debug`, oldest first. -/
  debugLog : List (String × List String)

/-- Client and world after running a method, with what the method returned. -/
structure Step (α : Type) where
  c : client
  w : World
  out : Outcome α

/-- Go `time.Now()`. -/
def timeNow (w : World) : Time × World :=
  (w.clock w.reads, { w with reads := w.reads + 1 })

/-- Go `func (c *client) debug(msg string, args ...any)`. -/
def debug (c : client) (w : World) (msg : String) (args : List String) : World :=
  match c.debugger with
  | some _ => { w with debugLog := w.debugLog ++ [(msg, args)] }
  | none => w

/-! ## `utils.go` -/

/-- Go `Header.Del`. -/
def Header.Del (L : Lib) (h : Header) (key : String) : Header :=
  h.filter (fun e => e.1 != L.CanonicalHeaderKey key)

/-- Go `Header.Add`. -/
def Header.Add (L : Lib) (h : Header) (key value : String) : Header :=
  if h.any (fun e => e.1 == L.CanonicalHeaderKey key) then
    h.map (fun e => if e.1 == L.CanonicalHeaderKey key then (e.1, e.2 ++ [value]) else e)
  else h ++ [(L.CanonicalHeaderKey key, [value])]

/-- Go `Header.Set`. -/
def Header.Set (L : Lib) (h : Header) (key value : String) : Header :=
  Header.Del L h key ++ [(L.CanonicalHeaderKey key, [value])]

/-- Go `func setHeaders(dest, src http.Header)`. -/
def setHeaders (L : Lib) (dest src : Header) : Header :=
  src.foldl (fun d kv => kv.2.foldl (fun d v => Header.Add L d kv.1 v) (Header.Del L d kv.1)) dest

/-- Go `func addBearerToken(hds http.Header, token string)`. -/
def addBearerToken (L : Lib) (hds : Header) (token : String) : Header :=
  Header.Set L hds "Authorization" ("Bearer " ++ token)

/-- Go `func httpDo(cl, req, jsonOut, expectBody)`; `Unmarshal` is `json.Unmarshal` at
the type of `jsonOut`, and the third component of the result is `jsonOut` afterwards. -/
def httpDo {β : Type} (cl : Option HttpClient) (req : Request) (w : World) (jsonOut : β)
    (Unmarshal : String → β → β × Option Error) (expectBody : Bool) :
    World × Outcome (Int × String × β × Option Error) :=
  match cl with
  | none => (w, .panic)
  | some cl =>
    let w1 := { w with sent := w.sent ++ [req] }
    match cl.Do w.sent req with
    | .error err => (w1, .ret (0, "", jsonOut, some err))
    | .ok res =>
      if !expectBody then (w1, .ret (res.StatusCode, res.Status, jsonOut, none))
      else
        match res.Body with
        | .error err => (w1, .ret (0, "", jsonOut, some err))
        | .ok body =>
          let r := Unmarshal body jsonOut
          (w1, .ret (res.StatusCode, res.Status, r.1, r.2))

/-- Go `func parseTokenTstamp(tokenString string) (time.Time, error)`.

The `numDate, err :=` inside the `if numDate == nil` block declares new variables
that live until the end of that block; the final `numDate.Time` reads the outer
`numDate`. -/
def parseTokenTstamp (L : Lib) (tokenString : String) : Outcome (Time × Option Error) :=
  match L.ParseUnverified tokenString with
  | .error err => .ret (Time.zero, some err)
  | .ok token =>
    match token.Claims.GetExpirationTime with
    | .error err => .ret (Time.zero, some err)
    | .ok numDate =>
      -- the block `if numDate == nil { ... }`: `some r` when it returns `r`
      let block : Option (Time × Option Error) :=
        if numDate = none then
          match token.Claims.GetNotBefore with
          | .error err => some (Time.zero, some err)
          | .ok numDateInner =>
            if numDateInner = none then some (Time.zero, some (Error.New "invalid token"))
            else none
        else none
      match block with
      | some r => .ret r
      | none =>
        -- `return numDate.Time, nil`
        match numDate with
        | none => .panic
        | some d => .ret (d, none)

/-! ## `api.go` -/

/-- The local variables `u`, `cl`, `customHd`, `updateToken` of `setRequestParams`. -/
structure RequestVars where
  u : Option URL
  cl : Option HttpClient
  customHd : Header
  updateToken : Bool

/-- One turn of the loop `for _, opt := range opts` of `setRequestParams`. -/
def applyRequestOption (p : RequestVars) : ClientOption → RequestVars
  | .urlOption v => { p with u := v }
  | .customClientOption v => { p with cl := v }
  | .headersOption v => { p with customHd := v }
  | .disableAutoUpdatingTokenOption v => { p with updateToken := !v }
  | _ => p

/-- The variables of `setRequestParams` after its loop over the options. -/
def requestVars (L : Lib) (c : client) (baseURL : URL) (path : String)
    (opts : List ClientOption) : RequestVars :=
  opts.foldl applyRequestOption
    { u := some (L.JoinPath baseURL path), cl := c.client, customHd := [],
      updateToken := c.autoUpdateToken }

/-- The request body that `Auth` formats. -/
def authBody (L : Lib) (c : client) : String :=
  "\x7b\"api_key\": " ++ L.Quote c.apiKey ++ ", \"api_secret\": " ++ L.Quote c.apiSecret ++ "\x7d"

/-- The request body that `RefreshToken` formats. -/
def refreshTokenBody (L : Lib) (c : client) : String :=
  "\x7b\"data\": \x7b\"refreshToken\": " ++ L.Quote c.refreshToken ++ "\x7d \x7d"

/-- The part of `setRequestParams` from `http.NewRequestWithContext` on. -/
def newRequest (L : Lib) (ctx : Context) (c : client) (w : World) (body : Option String)
    (method : String) (shouldAuth : Bool) (p : RequestVars) :
    Step (Except Error (Option HttpClient × Request)) :=
  match p.u with
  | none => ⟨c, w, .panic⟩
  | some u =>
    match L.NewRequestError ctx method u.str with
    | some err => ⟨c, w, .ret (.error err)⟩
    | none =>
      let req : Request := { ctx := ctx, Method := method, URL := u.str, Body := body, Header := [] }
      let req1 := if shouldAuth then { req with Header := addBearerToken L req.Header c.accessToken }
        else req
      ⟨c, w, .ret (.ok (p.cl, { req1 with Header := setHeaders L req1.Header p.customHd }))⟩

mutual

/-- Go `func (c *client) InitAuth(ctx context.Context, opts ...Option) error`. -/
def InitAuth (L : Lib) (ctx : Context) (c : client) (w : World) (opts : List ClientOption) :
    Step (Option Error) :=
  let now1 := timeNow w
  if c.accessTokenExpiresAt.After now1.1 then ⟨c, now1.2, .ret none⟩
  else
    let w1 := debug c now1.2 "[efashevdsapigo] access token expired." []
    let now2 := timeNow w1
    if c.refreshTokenExpiresAt.After now2.1 then
      match RefreshToken L ctx c now2.2 opts with
      | ⟨c1, w2, .panic⟩ => ⟨c1, w2, .panic⟩
      | ⟨c1, w2, .ret (.error err)⟩ => ⟨c1, w2, .ret (some err)⟩
      | ⟨c1, w2, .ret (.ok res)⟩ =>
        let c2 := { c1 with accessToken := res.Data.AccessToken }
        match parseTokenTstamp L res.Data.AccessToken with
        | .panic => ⟨c2, w2, .panic⟩
        | .ret (t, err) =>
          let c3 := { c2 with accessTokenExpiresAt := t }
          match err with
          | some err => ⟨c3, w2, .ret (some err)⟩
          | none =>
            ⟨c3, debug c3 w2 "[efashevdsapigo] access token renewed with refresh token." [],
              .ret none⟩
    else
      let w2 := debug c now2.2 "[efashevdsapigo] refresh token has expired." []
      match Auth L ctx c w2 opts with
      | ⟨c1, w3, .panic⟩ => ⟨c1, w3, .panic⟩
      | ⟨c1, w3, .ret (.error err)⟩ => ⟨c1, w3, .ret (some err)⟩
      | ⟨c1, w3, .ret (.ok res)⟩ =>
        match parseTokenTstamp L res.Data.AccessToken with
        | .panic => ⟨c1, w3, .panic⟩
        | .ret (_, some err) => ⟨c1, w3, .ret (some err)⟩
        | .ret (t, none) =>
          let c2 := { c1 with accessToken := res.Data.AccessToken, accessTokenExpiresAt := t }
          match parseTokenTstamp L res.Data.RefreshToken with
          | .panic => ⟨c2, w3, .panic⟩
          | .ret (_, some err) => ⟨c2, w3, .ret (some err)⟩
          | .ret (t, none) =>
            let c3 := { c2 with refreshToken := res.Data.RefreshToken, refreshTokenExpiresAt := t }
            ⟨c3, debug c3 w3 "[efashevdsapigo] fresh authentication was successful." [],
              .ret none⟩
termination_by 2
decreasing_by all_goals simp_wf

/-- Go `func (c *client) Auth(ctx context.Context, opts ...Option) (*AuthResp, error)`. -/
def Auth (L : Lib) (ctx : Context) (c : client) (w : World) (opts : List ClientOption) :
    Step (Except Error AuthResp) :=
  -- the invocation is recorded; the source has no counterpart of this line
  let w0 := { w with calls := w.calls ++ [Call.Auth] }
  let body := authBody L c
  match setRequestParams L ctx c w0 (some body) MethodPost "/auth" false opts with
  | ⟨c1, w1, .panic⟩ => ⟨c1, w1, .panic⟩
  | ⟨c1, w1, .ret (.error err)⟩ => ⟨c1, w1, .ret (.error err)⟩
  | ⟨c1, w1, .ret (.ok (cl, req))⟩ =>
    match httpDo cl req w1 ({} : AuthRes) L.UnmarshalAuth true with
    | (w2, .panic) => ⟨c1, w2, .panic⟩
    | (w2, .ret (_, _, _, some err)) => ⟨c1, w2, .ret (.error err)⟩
    | (w2, .ret (statusCode, status, res, none)) =>
      if statusCode = StatusOK then ⟨c1, w2, .ret (.ok res.AuthResp)⟩
      else if statusCode = StatusBadRequest then
        ⟨c1, w2, .ret (.error (Error.ValidationError res.Msg))⟩
      else if statusCode = StatusUnauthorized then
        ⟨c1, debug c1 w2 "[efashevdsapigo] /auth" ["status", status, "message", res.Msg],
          .ret (.error Error.ErrUnauthorized)⟩
      else if statusCode = StatusForbidden then
        ⟨c1, debug c1 w2 "[efashevdsapigo] /auth" ["status", status, "message", res.Msg],
          .ret (.error Error.ErrAccountBlocked)⟩
      else if statusCode = StatusNotFound then
        ⟨c1, debug c1 w2 "[efashevdsapigo] /auth" ["status", status, "message", res.Msg],
          .ret (.error Error.ErrAccountNotFound)⟩
      else
        ⟨c1, debug c1 w2 "[efashevdsapigo] /auth" ["status", status, "message", res.Msg],
          .ret (.error (Error.New res.Msg))⟩
termination_by 1
decreasing_by all_goals simp_wf

/-- Go `func (c *client) RefreshToken(ctx context.Context, opts ...Option) (*RefreshTokenResp, error)`. -/
def RefreshToken (L : Lib) (ctx : Context) (c : client) (w : World) (opts : List ClientOption) :
    Step (Except Error RefreshTokenResp) :=
  -- the invocation is recorded; the source has no counterpart of this line
  let w0 := { w with calls := w.calls ++ [Call.RefreshToken] }
  let body := refreshTokenBody L c
  match setRequestParams L ctx c w0 (some body) MethodPost "/refresh-token" false opts with
  | ⟨c1, w1, .panic⟩ => ⟨c1, w1, .panic⟩
  | ⟨c1, w1, .ret (.error err)⟩ => ⟨c1, w1, .ret (.error err)⟩
  | ⟨c1, w1, .ret (.ok (cl, req))⟩ =>
    match httpDo cl req w1 ({} : RefreshTokenRes) L.UnmarshalRefreshToken true with
    | (w2, .panic) => ⟨c1, w2, .panic⟩
    | (w2, .ret (_, _, _, some err)) => ⟨c1, w2, .ret (.error err)⟩
    | (w2, .ret (statusCode, status, res, none)) =>
      if statusCode = StatusOK then ⟨c1, w2, .ret (.ok res.RefreshTokenResp)⟩
      else
        ⟨c1, debug c1 w2 "[efashevdsapigo] /refresh-token" ["status", status, "message", res.Msg],
          .ret (.error (Error.New res.Msg))⟩
termination_by 1
decreasing_by all_goals simp_wf

/-- Go `func (c *client) setRequestParams(ctx, body, method, path, shouldAuth, opts...)`. -/
def setRequestParams (L : Lib) (ctx : Context) (c : client) (w : World) (body : Option String)
    (method path : String) (shouldAuth : Bool) (opts : List ClientOption) :
    Step (Except Error (Option HttpClient × Request)) :=
  match c.baseURL with
  | none => ⟨c, w, .panic⟩
  | some baseURL =>
    let p := requestVars L c baseURL path opts
    if h : (p.updateToken && shouldAuth) = true then
      match InitAuth L ctx c w [] with
      | ⟨c1, w1, .panic⟩ => ⟨c1, w1, .panic⟩
      | ⟨c1, w1, .ret (some err)⟩ => ⟨c1, w1, .ret (.error err)⟩
      | ⟨c1, w1, .ret none⟩ => newRequest L ctx c1 w1 body method shouldAuth p
    else newRequest L ctx c w body method shouldAuth p
termination_by if shouldAuth then 3 else 0
decreasing_by
  all_goals simp_wf
  simp only [Bool.and_eq_true] at h
  simp [h.2]

end

/-- One turn of the loop `for _, opt := range opts` of `NewClient`. -/
def applyClientOption (c : client) : ClientOption → client
  | .baseUrlOption v => { c with baseURL := v }
  | .disableAutoUpdatingTokenOption v => { c with autoUpdateToken := !v }
  | .customClientOption v => { c with client := v }
  | .debugOption v => { c with debugger := v }
  | _ => c

/-- The struct literal `&client{...}` of `NewClient`: no token, zero expiry instants. -/
def emptyClient (L : Lib) (apiKey apiSecret : String) : client :=
  { apiKey := apiKey, apiSecret := apiSecret, accessToken := "", refreshToken := "",
    accessTokenExpiresAt := Time.zero, refreshTokenExpiresAt := Time.zero,
    baseURL := none, client := some L.DefaultClient, debugger := none,
    autoUpdateToken := true }

/-- Go `func NewClient(ctx, apiKey, apiSecret string, opts ...Option) (Client, error)`. -/
def NewClient (L : Lib) (ctx : Context) (w : World) (apiKey apiSecret : String)
    (opts : List ClientOption) : World × Outcome (Except Error client) :=
  if apiKey = "" then (w, .ret (.error (Error.ValidationError "api key not provided")))
  else if apiSecret = "" then (w, .ret (.error (Error.ValidationError "api secret not provided")))
  else
    let c := opts.foldl applyClientOption (emptyClient L apiKey apiSecret)
    let withBase : Except Error client :=
      match c.baseURL with
      | none =>
        match L.ParseURL APIV2BaseURL with
        | .error err => .error err
        | .ok u => .ok { c with baseURL := some u }
      | some _ => .ok c
    match withBase with
    | .error err => (w, .ret (.error err))
    | .ok c =>
      match InitAuth L ctx c w [] with
      | ⟨_, w1, .panic⟩ => (w1, .panic)
      | ⟨_, w1, .ret (some err)⟩ => (w1, .ret (.error err))
      | ⟨c1, w1, .ret none⟩ => (w1, .ret (.ok c1))

/-- The value of `tokensCount` after the statement
`if tokensCount <= 0 || tokensCount > 10 { tokensCount = 10 }` of `ElectricityTokens`. -/
def numTokens (tokensCount : Int) : Int :=
  if tokensCount ≤ 0 ∨ tokensCount > 10 then 10 else tokensCount

/-- The text `fmt.Sprintf("%s?meterNo=%s&numTokens=%d", req.URL, meterNo, tokensCount)`
of `ElectricityTokens`; `reqURL` is the rendering of `req.URL`. -/
def electricityTokensURL (L : Lib) (reqURL meterNo : String) (tokensCount : Int) : String :=
  reqURL ++ "?meterNo=" ++ meterNo ++ "&numTokens=" ++ L.FormatInt tokensCount

/-- Go `func (c *client) ElectricityTokens(ctx, meterNo string, tokensCount int, opts ...Option)
(*ElectricityTokenResp, error)`.

The error of `url.Parse` is dropped by the source; when there is one `req.URL` is nil,
and `cl.Do` returns an error for such a request without sending it. -/
def ElectricityTokens (L : Lib) (ctx : Context) (c : client) (w : World) (meterNo : String)
    (tokensCount : Int) (opts : List ClientOption) : Step (Except Error ElectricityTokenResp) :=
  let meterNo := L.TrimSpace meterNo
  if meterNo = "" then
    ⟨c, w, .ret (.error (Error.ValidationError "meter number is required"))⟩
  else
    let tokensCount := numTokens tokensCount
    match setRequestParams L ctx c w none MethodGet "/electricity/tokens" true opts with
    | ⟨c1, w1, .panic⟩ => ⟨c1, w1, .panic⟩
    | ⟨c1, w1, .ret (.error err)⟩ => ⟨c1, w1, .ret (.error err)⟩
    | ⟨c1, w1, .ret (.ok (cl, req))⟩ =>
      match L.ParseURL (electricityTokensURL L req.URL meterNo tokensCount) with
      | .error _ => ⟨c1, w1, .ret (.error (Error.External "http: nil Request.URL"))⟩
      | .ok u =>
        match httpDo cl { req with URL := u.str } w1 ({} : ElectricityTokenRes)
            L.UnmarshalElectricityToken true with
        | (w2, .panic) => ⟨c1, w2, .panic⟩
        | (w2, .ret (_, _, _, some err)) => ⟨c1, w2, .ret (.error err)⟩
        | (w2, .ret (statusCode, status, res, none)) =>
          if statusCode = StatusOK then ⟨c1, w2, .ret (.ok res.ElectricityTokenResp)⟩
          else
            ⟨c1, debug c1 w2 ("[efashevdsapigo] " ++ L.RawPath u)
                ["status", status, "message", res.Msg],
              .ret (.error (Error.New res.Msg))⟩

/-- The world in which `InitAuth`, past its fast path, calls `RefreshToken`: two
clock readings taken and the first debug message written. -/
def renewalWorld (c : client) (w : World) : World :=
  (timeNow (debug c (timeNow w).2 "[efashevdsapigo] access token expired." [])).2

/-- The world in which `InitAuth`, past both expiry checks, calls `Auth`. -/
def authWorld (c : client) (w : World) : World :=
  debug c (renewalWorld c w) "[efashevdsapigo] refresh token has expired." []

/-- The request `q` is one that `RefreshToken` builds for the client `c`: a POST whose
body carries `c.refreshToken`, to the URL the options resolve for "/refresh-token". -/
def IsRefreshTokenRequest (L : Lib) (ctx : Context) (c : client) (opts : List ClientOption)
    (q : Request) : Prop :=
  q.ctx = ctx ∧ q.Method = MethodPost ∧ q.Body = some (refreshTokenBody L c) ∧
  ∃ baseURL, c.baseURL = some baseURL ∧
    (requestVars L c baseURL "/refresh-token" opts).u = some ⟨q.URL⟩

/-- The request `q` is one that `Auth` builds for the client `c`: a POST whose body
carries `c.apiKey` and `c.apiSecret`, to the URL the options resolve for "/auth". -/
def IsAuthRequest (L : Lib) (ctx : Context) (c : client) (opts : List ClientOption)
    (q : Request) : Prop :=
  q.ctx = ctx ∧ q.Method = MethodPost ∧ q.Body = some (authBody L c) ∧
  ∃ baseURL, c.baseURL = some baseURL ∧
    (requestVars L c baseURL "/auth" opts).u = some ⟨q.URL⟩

/-- The request of `Auth` or `RefreshToken` for `path` can be built and handed to a
client: the base URL, the URL after the options and the client after the options are
not nil, and `http.NewRequestWithContext` accepts the URL. -/
def CanSend (L : Lib) (ctx : Context) (c : client) (path : String) (opts : List ClientOption) :
    Prop :=
  ∃ baseURL u cl, c.baseURL = some baseURL ∧
    (requestVars L c baseURL path opts).u = some u ∧
    (requestVars L c baseURL path opts).cl = some cl ∧
    L.NewRequestError ctx MethodPost u.str = none

/-- Each stored expiry that is not the zero instant is what `parseTokenTstamp` returns,
without error, for the token stored next to it. -/
def ExpiryProvenance (L : Lib) (c : client) : Prop :=
  (c.accessTokenExpiresAt ≠ Time.zero →
    parseTokenTstamp L c.accessToken = .ret (c.accessTokenExpiresAt, none)) ∧
  (c.refreshTokenExpiresAt ≠ Time.zero →
    parseTokenTstamp L c.refreshToken = .ret (c.refreshTokenExpiresAt, none))

/-! ## A sample environment

Concrete libraries, servers and tokens on which the theorems are instantiated. The
sample tokens are JWTs with header `{"alg":"HS256","typ":"JWT"}`; `sampleLib` answers
for them as the libraries do and rejects every other input. -/

/-- Go `time.Unix(sec, 0)`, in nanoseconds since the zero instant. -/
def Time.Unix (sec : Int) : Time := (sec + 62135596800) * 1000000000

/-- A token with payload `{"exp":1700003600}`. -/
def tokenExp : String :=
  "eyJhbGciOiJIUzI1NiIsInR5cCI6IkpXVCJ9.eyJleHAiOjE3MDAwMDM2MDB9.c2ln"

/-- A token with payload `{"exp":1600000000}`. -/
def tokenExpired : String :=
  "eyJhbGciOiJIUzI1NiIsInR5cCI6IkpXVCJ9.eyJleHAiOjE2MDAwMDAwMDB9.c2ln"

/-- A token with payload `{"exp":1700086400}`. -/
def tokenRefresh : String :=
  "eyJhbGciOiJIUzI1NiIsInR5cCI6IkpXVCJ9.eyJleHAiOjE3MDAwODY0MDB9.c2ln"

/-- A token with payload `{"nbf":1700000000}`: a not-before claim and no expiration. -/
def tokenNotBefore : String :=
  "eyJhbGciOiJIUzI1NiIsInR5cCI6IkpXVCJ9.eyJuYmYiOjE3MDAwMDAwMDB9.c2ln"

/-- A token with payload `{"exp":1700003600,"nbf":1700000000}`. -/
def tokenBoth : String :=
  "eyJhbGciOiJIUzI1NiIsInR5cCI6IkpXVCJ9.eyJleHAiOjE3MDAwMDM2MDAsIm5iZiI6MTcwMDAwMDAwMH0.c2ln"

/-- A token with payload `{"sub":"pop-1"}`: neither claim. -/
def tokenNeither : String :=
  "eyJhbGciOiJIUzI1NiIsInR5cCI6IkpXVCJ9.eyJzdWIiOiJwb3AtMSJ9.c2ln"

/-- A string that is not a JWT (it has one segment). -/
def tokenGarbage : String := "garbage"

/-- A refresh response carrying `tokenExp`. -/
def bodyRefreshOk : String :=
  "\x7b\"data\":\x7b\"accessToken\":\"eyJhbGciOiJIUzI1NiIsInR5cCI6IkpXVCJ9.eyJleHAiOjE3MDAwMDM2MDB9.c2ln\"\x7d\x7d"

/-- A refresh response carrying `tokenExpired`. -/
def bodyRefreshExpired : String :=
  "\x7b\"data\":\x7b\"accessToken\":\"eyJhbGciOiJIUzI1NiIsInR5cCI6IkpXVCJ9.eyJleHAiOjE2MDAwMDAwMDB9.c2ln\"\x7d\x7d"

/-- A refresh response carrying `tokenGarbage`. -/
def bodyRefreshGarbage : String :=
  "\x7b\"data\":\x7b\"accessToken\":\"garbage\"\x7d\x7d"

/-- A refresh response carrying `tokenNotBefore`. -/
def bodyRefreshNotBefore : String :=
  "\x7b\"data\":\x7b\"accessToken\":\"eyJhbGciOiJIUzI1NiIsInR5cCI6IkpXVCJ9.eyJuYmYiOjE3MDAwMDAwMDB9.c2ln\"\x7d\x7d"

/-- An authentication response carrying `tokenExp` and `tokenRefresh`. -/
def bodyAuthOk : String :=
  "\x7b\"data\":\x7b\"accessToken\":\"eyJhbGciOiJIUzI1NiIsInR5cCI6IkpXVCJ9.eyJleHAiOjE3MDAwMDM2MDB9.c2ln\",\"refreshToken\":\"eyJhbGciOiJIUzI1NiIsInR5cCI6IkpXVCJ9.eyJleHAiOjE3MDAwODY0MDB9.c2ln\"\x7d\x7d"

/-- An authentication response carrying `tokenExp` and `tokenGarbage`. -/
def bodyAuthBadRefresh : String :=
  "\x7b\"data\":\x7b\"accessToken\":\"eyJhbGciOiJIUzI1NiIsInR5cCI6IkpXVCJ9.eyJleHAiOjE3MDAwMDM2MDB9.c2ln\",\"refreshToken\":\"garbage\"\x7d\x7d"

/-- The sample `ParseUnverified`. -/
def sampleParseUnverified (tokenString : String) : Except Error Token :=
  if tokenString = tokenExp then .ok ⟨⟨.ok (some (Time.Unix 1700003600)), .ok none⟩⟩
  else if tokenString = tokenExpired then .ok ⟨⟨.ok (some (Time.Unix 1600000000)), .ok none⟩⟩
  else if tokenString = tokenRefresh then .ok ⟨⟨.ok (some (Time.Unix 1700086400)), .ok none⟩⟩
  else if tokenString = tokenNotBefore then .ok ⟨⟨.ok none, .ok (some (Time.Unix 1700000000))⟩⟩
  else if tokenString = tokenBoth then
    .ok ⟨⟨.ok (some (Time.Unix 1700003600)), .ok (some (Time.Unix 1700000000))⟩⟩
  else if tokenString = tokenNeither then .ok ⟨⟨.ok none, .ok none⟩⟩
  else .error (Error.External "token is malformed")

/-- The sample `json.Unmarshal` for `Auth`. -/
def sampleUnmarshalAuth (body : String) (jsonOut : AuthRes) : AuthRes × Option Error :=
  if body = bodyAuthOk then
    ({ jsonOut with AuthResp := { Data := { AccessToken := tokenExp, RefreshToken := tokenRefresh } } },
      none)
  else if body = bodyAuthBadRefresh then
    ({ jsonOut with AuthResp := { Data := { AccessToken := tokenExp, RefreshToken := tokenGarbage } } },
      none)
  else (jsonOut, some (Error.External "unexpected end of JSON input"))

/-- The sample `json.Unmarshal` for `RefreshToken`. -/
def sampleUnmarshalRefreshToken (body : String) (jsonOut : RefreshTokenRes) :
    RefreshTokenRes × Option Error :=
  if body = bodyRefreshOk then
    ({ jsonOut with RefreshTokenResp := { Data := { AccessToken := tokenExp } } }, none)
  else if body = bodyRefreshExpired then
    ({ jsonOut with RefreshTokenResp := { Data := { AccessToken := tokenExpired } } }, none)
  else if body = bodyRefreshGarbage then
    ({ jsonOut with RefreshTokenResp := { Data := { AccessToken := tokenGarbage } } }, none)
  else if body = bodyRefreshNotBefore then
    ({ jsonOut with RefreshTokenResp := { Data := { AccessToken := tokenNotBefore } } }, none)
  else (jsonOut, some (Error.External "unexpected end of JSON input"))

/-- A server that answers every request with the given status and body. -/
def serverReplying (statusCode : Int) (status body : String) : HttpClient :=
  { Do := fun _ _ => .ok { StatusCode := statusCode, Status := status, Body := .ok body } }

/-- A server that cannot be reached. -/
def serverDown : HttpClient :=
  { Do := fun _ _ => .error (Error.External "connection refused") }

/-- The sample `strings.TrimSpace`: blanks, tabs and line ends are removed at both ends. -/
def sampleTrimSpace (s : String) : String :=
  let blank := fun (ch : Char) => ch == ' ' || ch == '\t' || ch == '\n' || ch == '\r'
  String.mk ((s.data.dropWhile blank).reverse.dropWhile blank).reverse

/-- The sample libraries. -/
def sampleLib : Lib :=
  { ParseUnverified := sampleParseUnverified
    Quote := fun s => "\"" ++ s ++ "\""
    JoinPath := fun u path => ⟨u.str ++ path.drop 1⟩
    NewRequestError := fun _ _ _ => none
    CanonicalHeaderKey := fun key => key
    UnmarshalAuth := sampleUnmarshalAuth
    UnmarshalRefreshToken := sampleUnmarshalRefreshToken
    ParseURL := fun s => .ok ⟨s⟩
    DefaultClient := serverDown
    TrimSpace := sampleTrimSpace
    FormatInt := fun n => toString n
    RawPath := fun _ => ""
    UnmarshalElectricityToken := fun _ jsonOut => (jsonOut, none) }

/-- A context. -/
def sampleCtx : Context := { id := 0 }

/-- A client for key "k" and secret "s" that talks to `server`, with the given session. -/
def sampleClient (server : HttpClient) (accessToken refreshToken : String)
    (accessTokenExpiresAt refreshTokenExpiresAt : Time) : client :=
  { apiKey := "k", apiSecret := "s", accessToken := accessToken, refreshToken := refreshToken,
    accessTokenExpiresAt := accessTokenExpiresAt, refreshTokenExpiresAt := refreshTokenExpiresAt,
    baseURL := some ⟨APIV2BaseURL⟩, client := some server, debugger := none,
    autoUpdateToken := true }

/-- A world whose clock always reads `now` and in which nothing has happened yet. -/
def sampleWorld (now : Time) : World :=
  { clock := fun _ => now, reads := 0, sent := [], calls := [], debugLog := [] }

/-- The instant at which the sample scenarios run: 2023-11-14 22:13:20 UTC. -/
def sampleNow : Time := Time.Unix 1700000000

/-- A session whose access token is valid for another hour. -/
def sessionValid : client :=
  sampleClient serverDown tokenExp tokenRefresh (Time.Unix 1700003600) (Time.Unix 1700086400)

/-- A session whose access token has expired and whose refresh token is valid for
another day. -/
def sessionAccessExpired (server : HttpClient) : client :=
  sampleClient server tokenExpired tokenRefresh (Time.Unix 1600000000) (Time.Unix 1700086400)

/-- A client that never authenticated: the state `NewClient` hands to `InitAuth`. -/
def sessionEmpty (server : HttpClient) : client :=
  { emptyClient sampleLib "k" "s" with baseURL := some ⟨APIV2BaseURL⟩, client := some server }

/-! ## Lemmas on the pieces -/

@[simp] theorem debug_sent (c : client) (w : World) (msg : String) (args : List String) :
    (debug c w msg args).sent = w.sent := by
  unfold debug; cases c.debugger <;> rfl

@[simp] theorem debug_calls (c : client) (w : World) (msg : String) (args : List String) :
    (debug c w msg args).calls = w.calls := by
  unfold debug; cases c.debugger <;> rfl

@[simp] theorem debug_clock (c : client) (w : World) (msg : String) (args : List String) :
    (debug c w msg args).clock = w.clock := by
  unfold debug; cases c.debugger <;> rfl

@[simp] theorem debug_reads (c : client) (w : World) (msg : String) (args : List String) :
    (debug c w msg args).reads = w.reads := by
  unfold debug; cases c.debugger <;> rfl

@[simp] theorem renewalWorld_sent (c : client) (w : World) : (renewalWorld c w).sent = w.sent := by
  simp [renewalWorld, timeNow]

@[simp] theorem renewalWorld_calls (c : client) (w : World) :
    (renewalWorld c w).calls = w.calls := by
  simp [renewalWorld, timeNow]

@[simp] theorem authWorld_sent (c : client) (w : World) : (authWorld c w).sent = w.sent := by
  simp [authWorld]

@[simp] theorem authWorld_calls (c : client) (w : World) : (authWorld c w).calls = w.calls := by
  simp [authWorld]

/-- With `shouldAuth = false`, `setRequestParams` only builds the request: it does not
reach `InitAuth` and leaves client and world as they are. -/
theorem setRequestParams_false (L : Lib) (ctx : Context) (c : client) (w : World)
    (body : Option String) (method path : String) (opts : List ClientOption) :
    setRequestParams L ctx c w body method path false opts =
      match c.baseURL with
      | none => ⟨c, w, .panic⟩
      | some baseURL =>
        newRequest L ctx c w body method false (requestVars L c baseURL path opts) := by
  rw [setRequestParams]
  cases c.baseURL <;> simp

/-- One call of `RefreshToken`: the client is untouched, the call is recorded, and at
most one request goes out, which is a refresh request. -/
theorem RefreshToken_frame (L : Lib) (ctx : Context) (c : client) (w : World)
    (opts : List ClientOption) :
    (RefreshToken L ctx c w opts).c = c ∧
    (RefreshToken L ctx c w opts).w.calls = w.calls ++ [Call.RefreshToken] ∧
    ((RefreshToken L ctx c w opts).w.sent = w.sent ∨
      ∃ q, (RefreshToken L ctx c w opts).w.sent = w.sent ++ [q] ∧
        IsRefreshTokenRequest L ctx c opts q) := by
  rw [RefreshToken]
  simp only [setRequestParams_false]
  cases hb : c.baseURL with
  | none => simp
  | some baseURL =>
    simp only [newRequest]
    cases hu : (requestVars L c baseURL "/refresh-token" opts).u with
    | none => simp
    | some u =>
      simp only []
      cases he : L.NewRequestError ctx MethodPost u.str with
      | some err => simp
      | none =>
        simp only [httpDo]
        cases hcl : (requestVars L c baseURL "/refresh-token" opts).cl with
        | none => simp
        | some cl =>
          simp only []
          have hq : IsRefreshTokenRequest L ctx c opts
              { ctx := ctx, Method := MethodPost, URL := u.str,
                Body := some (refreshTokenBody L c),
                Header := setHeaders L []
                  (requestVars L c baseURL "/refresh-token" opts).customHd } :=
            ⟨rfl, rfl, rfl, baseURL, hb, hu⟩
          cases hdo : cl.Do w.sent _ with
          | error err => simp [hq]
          | ok res =>
            simp only [Bool.not_true, Bool.false_eq_true, if_false]
            cases hbody : res.Body with
            | error err => simp [hq]
            | ok body =>
              simp only []
              cases hum : (L.UnmarshalRefreshToken body {}).2 with
              | some err => simp [hq]
              | none =>
                simp only []
                split <;> simp [hq]

/-- One call of `Auth`: the client is untouched, the call is recorded, and at most one
request goes out, which is an authentication request. -/
theorem Auth_frame (L : Lib) (ctx : Context) (c : client) (w : World)
    (opts : List ClientOption) :
    (Auth L ctx c w opts).c = c ∧
    (Auth L ctx c w opts).w.calls = w.calls ++ [Call.Auth] ∧
    ((Auth L ctx c w opts).w.sent = w.sent ∨
      ∃ q, (Auth L ctx c w opts).w.sent = w.sent ++ [q] ∧ IsAuthRequest L ctx c opts q) := by
  rw [Auth]
  simp only [setRequestParams_false]
  cases hb : c.baseURL with
  | none => simp
  | some baseURL =>
    simp only [newRequest]
    cases hu : (requestVars L c baseURL "/auth" opts).u with
    | none => simp
    | some u =>
      simp only []
      cases he : L.NewRequestError ctx MethodPost u.str with
      | some err => simp
      | none =>
        simp only [httpDo]
        cases hcl : (requestVars L c baseURL "/auth" opts).cl with
        | none => simp
        | some cl =>
          simp only []
          have hq : IsAuthRequest L ctx c opts
              { ctx := ctx, Method := MethodPost, URL := u.str,
                Body := some (authBody L c),
                Header := setHeaders L [] (requestVars L c baseURL "/auth" opts).customHd } :=
            ⟨rfl, rfl, rfl, baseURL, hb, hu⟩
          cases hdo : cl.Do w.sent _ with
          | error err => simp [hq]
          | ok res =>
            simp only [Bool.not_true, Bool.false_eq_true, if_false]
            cases hbody : res.Body with
            | error err => simp [hq]
            | ok body =>
              simp only []
              cases hum : (L.UnmarshalAuth body {}).2 with
              | some err => simp [hq]
              | none =>
                simp only []
                repeat' split
                all_goals simp [hq]

/-- Past the fast path with a live refresh token, `InitAuth` is the renewal branch. -/
theorem InitAuth_refresh_branch (L : Lib) (ctx : Context) (c : client) (w : World)
    (opts : List ClientOption)
    (hA : c.accessTokenExpiresAt.After (w.clock w.reads) = false)
    (hR : c.refreshTokenExpiresAt.After (w.clock (w.reads + 1)) = true) :
    InitAuth L ctx c w opts =
      match RefreshToken L ctx c (renewalWorld c w) opts with
      | ⟨c1, w2, .panic⟩ => ⟨c1, w2, .panic⟩
      | ⟨c1, w2, .ret (.error err)⟩ => ⟨c1, w2, .ret (some err)⟩
      | ⟨c1, w2, .ret (.ok res)⟩ =>
        match parseTokenTstamp L res.Data.AccessToken with
        | .panic => ⟨{ c1 with accessToken := res.Data.AccessToken }, w2, .panic⟩
        | .ret (t, some err) =>
          ⟨{ c1 with accessToken := res.Data.AccessToken, accessTokenExpiresAt := t }, w2,
            .ret (some err)⟩
        | .ret (t, none) =>
          ⟨{ c1 with accessToken := res.Data.AccessToken, accessTokenExpiresAt := t },
            debug { c1 with accessToken := res.Data.AccessToken, accessTokenExpiresAt := t } w2
              "[efashevdsapigo] access token renewed with refresh token." [],
            .ret none⟩ := by
  have h1 : c.accessTokenExpiresAt.After (timeNow w).1 = false := hA
  have h2 : c.refreshTokenExpiresAt.After
      (timeNow (debug c (timeNow w).2 "[efashevdsapigo] access token expired." [])).1 = true := by
    simp only [timeNow, debug_clock, debug_reads]
    exact hR
  rw [InitAuth]
  simp only [h1, h2, Bool.false_eq_true, if_false, if_true, renewalWorld]
  rcases RefreshToken L ctx c _ opts with ⟨c1, w2, out⟩
  rcases out with ⟨res | res⟩ | _
  · rfl
  · simp only []
    rcases parseTokenTstamp L res.Data.AccessToken with ⟨t, err⟩ | _
    · cases err <;> rfl
    · rfl
  · rfl

/-- Past both expiry checks, `InitAuth` is the full authentication branch. -/
theorem InitAuth_auth_branch (L : Lib) (ctx : Context) (c : client) (w : World)
    (opts : List ClientOption)
    (hA : c.accessTokenExpiresAt.After (w.clock w.reads) = false)
    (hR : c.refreshTokenExpiresAt.After (w.clock (w.reads + 1)) = false) :
    InitAuth L ctx c w opts =
      match Auth L ctx c (authWorld c w) opts with
      | ⟨c1, w3, .panic⟩ => ⟨c1, w3, .panic⟩
      | ⟨c1, w3, .ret (.error err)⟩ => ⟨c1, w3, .ret (some err)⟩
      | ⟨c1, w3, .ret (.ok res)⟩ =>
        match parseTokenTstamp L res.Data.AccessToken with
        | .panic => ⟨c1, w3, .panic⟩
        | .ret (_, some err) => ⟨c1, w3, .ret (some err)⟩
        | .ret (t, none) =>
          match parseTokenTstamp L res.Data.RefreshToken with
          | .panic =>
            ⟨{ c1 with accessToken := res.Data.AccessToken, accessTokenExpiresAt := t }, w3, .panic⟩
          | .ret (_, some err) =>
            ⟨{ c1 with accessToken := res.Data.AccessToken, accessTokenExpiresAt := t }, w3,
              .ret (some err)⟩
          | .ret (t2, none) =>
            let c3 : client :=
              { c1 with accessToken := res.Data.AccessToken, accessTokenExpiresAt := t,
                        refreshToken := res.Data.RefreshToken, refreshTokenExpiresAt := t2 }
            ⟨c3, debug c3 w3 "[efashevdsapigo] fresh authentication was successful." [],
              .ret none⟩ := by
  have h1 : c.accessTokenExpiresAt.After (timeNow w).1 = false := hA
  have h2 : c.refreshTokenExpiresAt.After
      (timeNow (debug c (timeNow w).2 "[efashevdsapigo] access token expired." [])).1 = false := by
    simp only [timeNow, debug_clock, debug_reads]
    exact hR
  rw [InitAuth]
  simp only [h1, h2, Bool.false_eq_true, if_false, authWorld, renewalWorld]

/-- An error of `parseTokenTstamp` comes with the zero instant. -/
theorem parseTokenTstamp_error_zero (L : Lib) (tokenString : String) (t : Time) (err : Error)
    (h : parseTokenTstamp L tokenString = .ret (t, some err)) : t = Time.zero := by
  unfold parseTokenTstamp at h
  cases hp : L.ParseUnverified tokenString with
  | error e => simp [hp] at h; exact h.1.symm
  | ok token =>
    cases he : token.Claims.GetExpirationTime with
    | error e => simp [hp, he] at h; exact h.1.symm
    | ok numDate =>
      cases numDate with
      | some d => simp [hp, he] at h
      | none =>
        cases hn : token.Claims.GetNotBefore with
        | error e => simp [hp, he, hn] at h; exact h.1.symm
        | ok inner =>
          cases inner with
          | none => simp [hp, he, hn] at h; exact h.1.symm
          | some d => simp [hp, he, hn] at h

/-- On the fast path `InitAuth` returns at once. -/
theorem InitAuth_fast_branch (L : Lib) (ctx : Context) (c : client) (w : World)
    (opts : List ClientOption)
    (h : c.accessTokenExpiresAt.After (w.clock w.reads) = true) :
    InitAuth L ctx c w opts = ⟨c, (timeNow w).2, .ret none⟩ := by
  have h1 : c.accessTokenExpiresAt.After (timeNow w).1 = true := h
  rw [InitAuth]
  simp only [h1, if_true]

/-- The returns of `InitAuth` on the refresh path: nil after a decoded renewal, the error
of `RefreshToken` with the client untouched, or the error of the decoding. -/
theorem InitAuth_refresh_returns (L : Lib) (ctx : Context) (c : client) (w : World)
    (opts : List ClientOption) (e : Option Error)
    (hA : c.accessTokenExpiresAt.After (w.clock w.reads) = false)
    (hR : c.refreshTokenExpiresAt.After (w.clock (w.reads + 1)) = true)
    (hout : (InitAuth L ctx c w opts).out = .ret e) :
    (∃ err, e = some err ∧
      (RefreshToken L ctx c (renewalWorld c w) opts).out = .ret (.error err) ∧
      (InitAuth L ctx c w opts).c = c) ∨
    (∃ res t, (RefreshToken L ctx c (renewalWorld c w) opts).out = .ret (.ok res) ∧
      parseTokenTstamp L res.Data.AccessToken = .ret (t, e) ∧
      (InitAuth L ctx c w opts).c =
        { c with accessToken := res.Data.AccessToken, accessTokenExpiresAt := t }) := by
  rw [InitAuth_refresh_branch L ctx c w opts hA hR] at hout ⊢
  obtain ⟨hc, -, -⟩ := RefreshToken_frame L ctx c (renewalWorld c w) opts
  rcases hr : RefreshToken L ctx c (renewalWorld c w) opts with ⟨c1, w2, out⟩
  rw [hr] at hc hout
  simp only [] at hc
  subst hc
  rcases out with ⟨err | res⟩ | _
  · simp only [Outcome.ret.injEq] at hout
    exact Or.inl ⟨err, hout.symm, rfl, rfl⟩
  · simp only [] at hout ⊢
    rcases hp : parseTokenTstamp L res.Data.AccessToken with ⟨t, err⟩ | _
    · rw [hp] at hout
      cases err with
      | none =>
        simp only [Outcome.ret.injEq] at hout
        exact Or.inr ⟨res, t, rfl, by rw [← hout]; exact hp, rfl⟩
      | some e1 =>
        simp only [Outcome.ret.injEq] at hout
        exact Or.inr ⟨res, t, rfl, by rw [← hout]; exact hp, rfl⟩
    · rw [hp] at hout
      simp at hout
  · simp at hout

/-- The returns of `InitAuth` on the full authentication path: the error of `Auth` or of
decoding the access token with the client untouched, the error of decoding the refresh
token with the access token replaced, or nil with both replaced. -/
theorem InitAuth_auth_returns (L : Lib) (ctx : Context) (c : client) (w : World)
    (opts : List ClientOption) (e : Option Error)
    (hA : c.accessTokenExpiresAt.After (w.clock w.reads) = false)
    (hR : c.refreshTokenExpiresAt.After (w.clock (w.reads + 1)) = false)
    (hout : (InitAuth L ctx c w opts).out = .ret e) :
    (∃ err, e = some err ∧ (Auth L ctx c (authWorld c w) opts).out = .ret (.error err) ∧
      (InitAuth L ctx c w opts).c = c) ∨
    (∃ res t err, e = some err ∧ (Auth L ctx c (authWorld c w) opts).out = .ret (.ok res) ∧
      parseTokenTstamp L res.Data.AccessToken = .ret (t, some err) ∧
      (InitAuth L ctx c w opts).c = c) ∨
    (∃ res t t2 err, e = some err ∧
      (Auth L ctx c (authWorld c w) opts).out = .ret (.ok res) ∧
      parseTokenTstamp L res.Data.AccessToken = .ret (t, none) ∧
      parseTokenTstamp L res.Data.RefreshToken = .ret (t2, some err) ∧
      (InitAuth L ctx c w opts).c =
        { c with accessToken := res.Data.AccessToken, accessTokenExpiresAt := t }) ∨
    (∃ res t t2, e = none ∧ (Auth L ctx c (authWorld c w) opts).out = .ret (.ok res) ∧
      parseTokenTstamp L res.Data.AccessToken = .ret (t, none) ∧
      parseTokenTstamp L res.Data.RefreshToken = .ret (t2, none) ∧
      (InitAuth L ctx c w opts).c =
        { c with accessToken := res.Data.AccessToken, accessTokenExpiresAt := t,
                 refreshToken := res.Data.RefreshToken, refreshTokenExpiresAt := t2 }) := by
  rw [InitAuth_auth_branch L ctx c w opts hA hR] at hout ⊢
  obtain ⟨hc, -, -⟩ := Auth_frame L ctx c (authWorld c w) opts
  rcases hr : Auth L ctx c (authWorld c w) opts with ⟨c1, w3, out⟩
  rw [hr] at hc hout
  simp only [] at hc
  subst hc
  rcases out with ⟨err | res⟩ | _
  · simp only [Outcome.ret.injEq] at hout
    exact Or.inl ⟨err, hout.symm, rfl, rfl⟩
  · simp only [] at hout ⊢
    rcases hp : parseTokenTstamp L res.Data.AccessToken with ⟨t, err⟩ | _
    · rw [hp] at hout
      cases err with
      | some e1 =>
        simp only [Outcome.ret.injEq] at hout
        exact Or.inr (Or.inl ⟨res, t, e1, hout.symm, rfl, hp, rfl⟩)
      | none =>
        simp only [] at hout ⊢
        rcases hp2 : parseTokenTstamp L res.Data.RefreshToken with ⟨t2, err2⟩ | _
        · rw [hp2] at hout
          cases err2 with
          | some e2 =>
            simp only [Outcome.ret.injEq] at hout
            exact Or.inr (Or.inr (Or.inl ⟨res, t, t2, e2, hout.symm, rfl, hp, hp2, rfl⟩))
          | none =>
            simp only [Outcome.ret.injEq] at hout
            exact Or.inr (Or.inr (Or.inr ⟨res, t, t2, hout.symm, rfl, hp, hp2, rfl⟩))
        · rw [hp2] at hout
          simp at hout
    · rw [hp] at hout
      simp at hout
  · simp at hout

/-- When its request can be built and handed to a client, `RefreshToken` sends exactly
one request, a refresh request. -/
theorem RefreshToken_sends (L : Lib) (ctx : Context) (c : client) (w : World)
    (opts : List ClientOption) (h : CanSend L ctx c "/refresh-token" opts) :
    ∃ q, (RefreshToken L ctx c w opts).w.sent = w.sent ++ [q] ∧
      IsRefreshTokenRequest L ctx c opts q := by
  obtain ⟨baseURL, u, cl, hb, hu, hcl, he⟩ := h
  refine ⟨{ ctx := ctx, Method := MethodPost, URL := u.str,
            Body := some (refreshTokenBody L c),
            Header := setHeaders L [] (requestVars L c baseURL "/refresh-token" opts).customHd },
    ?_, ⟨rfl, rfl, rfl, baseURL, hb, hu⟩⟩
  rw [RefreshToken]
  simp only [setRequestParams_false, hb, newRequest, hu, he, httpDo, hcl]
  cases hdo : cl.Do w.sent _ with
  | error err => simp
  | ok res =>
    simp only [Bool.not_true, Bool.false_eq_true, if_false]
    cases hbody : res.Body with
    | error err => simp
    | ok body =>
      simp only []
      cases hum : (L.UnmarshalRefreshToken body {}).2 with
      | some err => simp
      | none =>
        simp only []
        split <;> simp

/-- When its request can be built and handed to a client, `Auth` sends exactly one
request, an authentication request. -/
theorem Auth_sends (L : Lib) (ctx : Context) (c : client) (w : World)
    (opts : List ClientOption) (h : CanSend L ctx c "/auth" opts) :
    ∃ q, (Auth L ctx c w opts).w.sent = w.sent ++ [q] ∧ IsAuthRequest L ctx c opts q := by
  obtain ⟨baseURL, u, cl, hb, hu, hcl, he⟩ := h
  refine ⟨{ ctx := ctx, Method := MethodPost, URL := u.str,
            Body := some (authBody L c),
            Header := setHeaders L [] (requestVars L c baseURL "/auth" opts).customHd },
    ?_, ⟨rfl, rfl, rfl, baseURL, hb, hu⟩⟩
  rw [Auth]
  simp only [setRequestParams_false, hb, newRequest, hu, he, httpDo, hcl]
  cases hdo : cl.Do w.sent _ with
  | error err => simp
  | ok res =>
    simp only [Bool.not_true, Bool.false_eq_true, if_false]
    cases hbody : res.Body with
    | error err => simp
    | ok body =>
      simp only []
      cases hum : (L.UnmarshalAuth body {}).2 with
      | some err => simp
      | none =>
        simp only []
        repeat' split
        all_goals simp

/-- After the exchange `InitAuth` sends nothing and calls nothing: on the refresh path
its world has the requests and calls of the world `RefreshToken` left. -/
theorem InitAuth_refresh_world (L : Lib) (ctx : Context) (c : client) (w : World)
    (opts : List ClientOption)
    (hA : c.accessTokenExpiresAt.After (w.clock w.reads) = false)
    (hR : c.refreshTokenExpiresAt.After (w.clock (w.reads + 1)) = true) :
    (InitAuth L ctx c w opts).w.sent = (RefreshToken L ctx c (renewalWorld c w) opts).w.sent ∧
    (InitAuth L ctx c w opts).w.calls
      = (RefreshToken L ctx c (renewalWorld c w) opts).w.calls := by
  rw [InitAuth_refresh_branch L ctx c w opts hA hR]
  rcases RefreshToken L ctx c (renewalWorld c w) opts with ⟨c1, w2, out⟩
  rcases out with ⟨err | res⟩ | _
  · exact ⟨rfl, rfl⟩
  · simp only []
    rcases parseTokenTstamp L res.Data.AccessToken with ⟨t, err⟩ | _
    · cases err <;> simp
    · exact ⟨rfl, rfl⟩
  · exact ⟨rfl, rfl⟩

/-- After the exchange `InitAuth` sends nothing and calls nothing: on the full
authentication path its world has the requests and calls of the world `Auth` left. -/
theorem InitAuth_auth_world (L : Lib) (ctx : Context) (c : client) (w : World)
    (opts : List ClientOption)
    (hA : c.accessTokenExpiresAt.After (w.clock w.reads) = false)
    (hR : c.refreshTokenExpiresAt.After (w.clock (w.reads + 1)) = false) :
    (InitAuth L ctx c w opts).w.sent = (Auth L ctx c (authWorld c w) opts).w.sent ∧
    (InitAuth L ctx c w opts).w.calls = (Auth L ctx c (authWorld c w) opts).w.calls := by
  rw [InitAuth_auth_branch L ctx c w opts hA hR]
  rcases Auth L ctx c (authWorld c w) opts with ⟨c1, w3, out⟩
  rcases out with ⟨err | res⟩ | _
  · exact ⟨rfl, rfl⟩
  · simp only []
    rcases parseTokenTstamp L res.Data.AccessToken with ⟨t, err⟩ | _
    · cases err with
      | some e => exact ⟨rfl, rfl⟩
      | none =>
        simp only []
        rcases parseTokenTstamp L res.Data.RefreshToken with ⟨t2, err2⟩ | _
        · cases err2 <;> simp
        · exact ⟨rfl, rfl⟩
    · exact ⟨rfl, rfl⟩
  · exact ⟨rfl, rfl⟩

/-! ## Runs of the sample environment -/

/-- With the server down, `RefreshToken` returns the transport error. -/
theorem RefreshToken_serverDown :
    (RefreshToken sampleLib sampleCtx (sessionAccessExpired serverDown)
        (renewalWorld (sessionAccessExpired serverDown) (sampleWorld sampleNow)) []).out
      = .ret (.error (Error.External "connection refused")) := by
  rw [RefreshToken]
  simp [setRequestParams_false, newRequest, httpDo, sessionAccessExpired, sampleClient,
    requestVars, sampleLib, serverDown]

/-- A run of the refresh path in which the server hands out an access token that has
already expired: `InitAuth` returns nil and stores that token and its past expiry. -/
theorem InitAuth_sample_expired_renewal :
    (InitAuth sampleLib sampleCtx (sessionAccessExpired
        (serverReplying 200 "200 OK" bodyRefreshExpired)) (sampleWorld sampleNow) []).out
      = .ret none ∧
    (InitAuth sampleLib sampleCtx
        (sessionAccessExpired (serverReplying 200 "200 OK" bodyRefreshExpired))
        (sampleWorld sampleNow) []).c.accessTokenExpiresAt = Time.Unix 1600000000 := by
  rw [InitAuth]
  simp [RefreshToken, setRequestParams_false, newRequest, httpDo, sessionAccessExpired,
    sampleClient, sampleWorld, sampleNow, timeNow, debug, Time.After, Time.Unix, requestVars,
    sampleLib, serverReplying, sampleUnmarshalRefreshToken, bodyRefreshExpired, bodyRefreshOk,
    StatusOK, parseTokenTstamp, sampleParseUnverified, tokenExp, tokenExpired, tokenRefresh,
    MethodPost, setHeaders, APIV2BaseURL]

/-- A run of the full authentication path in which the refresh token of the response
cannot be decoded: `InitAuth` returns the error of the decoding, the access token and
its expiry are the new ones, the refresh token and its expiry the old ones. -/
theorem InitAuth_sample_bad_refresh_token :
    (InitAuth sampleLib sampleCtx (sessionEmpty
        (serverReplying 200 "200 OK" bodyAuthBadRefresh)) (sampleWorld sampleNow) []).out
      = .ret (some (Error.External "token is malformed")) ∧
    (InitAuth sampleLib sampleCtx (sessionEmpty
        (serverReplying 200 "200 OK" bodyAuthBadRefresh)) (sampleWorld sampleNow) []).c
      = { sessionEmpty (serverReplying 200 "200 OK" bodyAuthBadRefresh) with
          accessToken := tokenExp, accessTokenExpiresAt := Time.Unix 1700003600 } := by
  rw [InitAuth]
  simp [Auth, setRequestParams_false, newRequest, httpDo, sessionEmpty, emptyClient,
    sampleWorld, sampleNow, timeNow, debug, Time.After, Time.Unix, Time.zero, requestVars,
    sampleLib, serverReplying, sampleUnmarshalAuth, bodyAuthBadRefresh, bodyAuthOk,
    StatusOK, parseTokenTstamp, sampleParseUnverified, tokenExp, tokenExpired, tokenRefresh,
    tokenNotBefore, tokenBoth, tokenNeither, tokenGarbage,
    MethodPost, setHeaders, APIV2BaseURL]

/-- A run of the refresh path in which the access token of the response cannot be
decoded: `InitAuth` returns the error of the decoding with the new token stored and the
expiry reset to the zero instant. -/
theorem InitAuth_sample_bad_access_token :
    (InitAuth sampleLib sampleCtx (sessionAccessExpired
        (serverReplying 200 "200 OK" bodyRefreshGarbage)) (sampleWorld sampleNow) []).out
      = .ret (some (Error.External "token is malformed")) ∧
    (InitAuth sampleLib sampleCtx (sessionAccessExpired
        (serverReplying 200 "200 OK" bodyRefreshGarbage)) (sampleWorld sampleNow) []).c
      = { sessionAccessExpired (serverReplying 200 "200 OK" bodyRefreshGarbage) with
          accessToken := tokenGarbage, accessTokenExpiresAt := Time.zero } := by
  rw [InitAuth]
  simp [RefreshToken, setRequestParams_false, newRequest, httpDo, sessionAccessExpired,
    sampleClient, sampleWorld, sampleNow, timeNow, debug, Time.After, Time.Unix, requestVars,
    sampleLib, serverReplying, sampleUnmarshalRefreshToken, bodyRefreshExpired, bodyRefreshOk,
    bodyRefreshGarbage,
    StatusOK, parseTokenTstamp, sampleParseUnverified, tokenExp, tokenExpired, tokenRefresh,
    tokenNotBefore, tokenBoth, tokenNeither, tokenGarbage,
    MethodPost, setHeaders, APIV2BaseURL]

/-- A run of the refresh path in which the response carries a token with a not-before
claim and no expiration: `InitAuth` panics, the new token already stored next to the old
expiry. -/
theorem InitAuth_sample_not_before_token :
    (InitAuth sampleLib sampleCtx (sessionAccessExpired
        (serverReplying 200 "200 OK" bodyRefreshNotBefore)) (sampleWorld sampleNow) []).out
      = .panic ∧
    (InitAuth sampleLib sampleCtx (sessionAccessExpired
        (serverReplying 200 "200 OK" bodyRefreshNotBefore)) (sampleWorld sampleNow) []).c
      = { sessionAccessExpired (serverReplying 200 "200 OK" bodyRefreshNotBefore) with
          accessToken := tokenNotBefore } := by
  rw [InitAuth]
  simp [RefreshToken, setRequestParams_false, newRequest, httpDo, sessionAccessExpired,
    sampleClient, sampleWorld, sampleNow, timeNow, debug, Time.After, Time.Unix, requestVars,
    sampleLib, serverReplying, sampleUnmarshalRefreshToken, bodyRefreshExpired, bodyRefreshOk,
    bodyRefreshGarbage, bodyRefreshNotBefore,
    StatusOK, parseTokenTstamp, sampleParseUnverified, tokenExp, tokenExpired, tokenRefresh,
    tokenNotBefore, tokenBoth, tokenNeither, tokenGarbage,
    MethodPost, setHeaders, APIV2BaseURL]

/-- A run of the full authentication path for a client that never authenticated:
`InitAuth` returns nil and stores both tokens of the response with their expiries. -/
theorem InitAuth_sample_first_auth :
    (InitAuth sampleLib sampleCtx (sessionEmpty (serverReplying 200 "200 OK" bodyAuthOk))
        (sampleWorld sampleNow) []).out = .ret none ∧
    (InitAuth sampleLib sampleCtx (sessionEmpty (serverReplying 200 "200 OK" bodyAuthOk))
        (sampleWorld sampleNow) []).c
      = { sessionEmpty (serverReplying 200 "200 OK" bodyAuthOk) with
          accessToken := tokenExp, accessTokenExpiresAt := Time.Unix 1700003600,
          refreshToken := tokenRefresh, refreshTokenExpiresAt := Time.Unix 1700086400 } := by
  rw [InitAuth]
  simp [Auth, setRequestParams_false, newRequest, httpDo, sessionEmpty, emptyClient,
    sampleWorld, sampleNow, timeNow, debug, Time.After, Time.Unix, Time.zero, requestVars,
    sampleLib, serverReplying, sampleUnmarshalAuth, bodyAuthBadRefresh, bodyAuthOk,
    StatusOK, parseTokenTstamp, sampleParseUnverified, tokenExp, tokenExpired, tokenRefresh,
    tokenNotBefore, tokenBoth, tokenNeither, tokenGarbage,
    MethodPost, setHeaders, APIV2BaseURL]

/-! ## The request of an exchange, field by field -/

/-- The URL that the option loop of `setRequestParams` leaves is the joined one or one
given by a `urlOption`; without such an option it is the joined one. -/
theorem foldl_applyRequestOption_u (opts : List ClientOption) (p : RequestVars) :
    ((opts.foldl applyRequestOption p).u = p.u ∨
      ∃ v, ClientOption.urlOption v ∈ opts ∧ (opts.foldl applyRequestOption p).u = v) ∧
    ((∀ v, ClientOption.urlOption v ∉ opts) → (opts.foldl applyRequestOption p).u = p.u) := by
  induction opts generalizing p with
  | nil => exact ⟨Or.inl rfl, fun _ => rfl⟩
  | cons o rest ih =>
    rw [List.foldl_cons]
    obtain ⟨h1, h2⟩ := ih (applyRequestOption p o)
    constructor
    · rcases h1 with h | ⟨v, hv, h⟩
      · cases o with
        | urlOption v => exact Or.inr ⟨v, List.mem_cons_self _ _, h⟩
        | _ => exact Or.inl h
      · exact Or.inr ⟨v, List.mem_cons_of_mem _ hv, h⟩
    · intro hno
      rw [h2 (fun v hv => hno v (List.mem_cons_of_mem _ hv))]
      cases o with
      | urlOption v => exact absurd (List.mem_cons_self _ _) (hno v)
      | _ => rfl

/-- Without a `customClientOption` the option loop of `setRequestParams` leaves the
client of the receiver. -/
theorem foldl_applyRequestOption_cl (opts : List ClientOption) (p : RequestVars)
    (hno : ∀ v, ClientOption.customClientOption v ∉ opts) :
    (opts.foldl applyRequestOption p).cl = p.cl := by
  induction opts generalizing p with
  | nil => rfl
  | cons o rest ih =>
    rw [List.foldl_cons, ih _ (fun v hv => hno v (List.mem_cons_of_mem _ hv))]
    cases o with
    | customClientOption v => exact absurd (List.mem_cons_self _ _) (hno v)
    | _ => rfl

/-- A request of `RefreshToken`, field by field: a POST whose body is the JSON text with
the quoted `refreshToken` of the client, to the base URL joined with "/refresh-token"
unless a `urlOption` names another URL. -/
theorem IsRefreshTokenRequest_fields (L : Lib) (ctx : Context) (c : client)
    (opts : List ClientOption) (q : Request) (h : IsRefreshTokenRequest L ctx c opts q) :
    ∃ baseURL, c.baseURL = some baseURL ∧ q.ctx = ctx ∧ q.Method = "POST" ∧
      q.Body = some ("\x7b\"data\": \x7b\"refreshToken\": " ++ L.Quote c.refreshToken
        ++ "\x7d \x7d") ∧
      (q.URL = (L.JoinPath baseURL "/refresh-token").str ∨
        ∃ v, ClientOption.urlOption (some v) ∈ opts ∧ q.URL = v.str) ∧
      ((∀ v, ClientOption.urlOption v ∉ opts) →
        q.URL = (L.JoinPath baseURL "/refresh-token").str) := by
  obtain ⟨hctx, hm, hbody, baseURL, hb, hu⟩ := h
  obtain ⟨h1, h2⟩ := foldl_applyRequestOption_u opts
    { u := some (L.JoinPath baseURL "/refresh-token"), cl := c.client, customHd := [],
      updateToken := c.autoUpdateToken }
  refine ⟨baseURL, hb, hctx, hm, hbody, ?_, ?_⟩
  · rcases h1 with h | ⟨v, hv, h⟩
    · left
      have : some (⟨q.URL⟩ : URL) = some (L.JoinPath baseURL "/refresh-token") :=
        hu.symm.trans h
      exact congrArg URL.str (Option.some.inj this)
    · right
      have hv2 : v = some ⟨q.URL⟩ := h.symm.trans hu
      subst hv2
      exact ⟨⟨q.URL⟩, hv, rfl⟩
  · intro hno
    have : some (⟨q.URL⟩ : URL) = some (L.JoinPath baseURL "/refresh-token") :=
      hu.symm.trans (h2 hno)
    exact congrArg URL.str (Option.some.inj this)

/-- A request of `Auth`, field by field: a POST whose body is the JSON text with the
quoted `apiKey` and `apiSecret` of the client, to the base URL joined with "/auth"
unless a `urlOption` names another URL. -/
theorem IsAuthRequest_fields (L : Lib) (ctx : Context) (c : client)
    (opts : List ClientOption) (q : Request) (h : IsAuthRequest L ctx c opts q) :
    ∃ baseURL, c.baseURL = some baseURL ∧ q.ctx = ctx ∧ q.Method = "POST" ∧
      q.Body = some ("\x7b\"api_key\": " ++ L.Quote c.apiKey ++ ", \"api_secret\": "
        ++ L.Quote c.apiSecret ++ "\x7d") ∧
      (q.URL = (L.JoinPath baseURL "/auth").str ∨
        ∃ v, ClientOption.urlOption (some v) ∈ opts ∧ q.URL = v.str) ∧
      ((∀ v, ClientOption.urlOption v ∉ opts) → q.URL = (L.JoinPath baseURL "/auth").str) := by
  obtain ⟨hctx, hm, hbody, baseURL, hb, hu⟩ := h
  obtain ⟨h1, h2⟩ := foldl_applyRequestOption_u opts
    { u := some (L.JoinPath baseURL "/auth"), cl := c.client, customHd := [],
      updateToken := c.autoUpdateToken }
  refine ⟨baseURL, hb, hctx, hm, hbody, ?_, ?_⟩
  · rcases h1 with h | ⟨v, hv, h⟩
    · left
      have : some (⟨q.URL⟩ : URL) = some (L.JoinPath baseURL "/auth") := hu.symm.trans h
      exact congrArg URL.str (Option.some.inj this)
    · right
      have hv2 : v = some ⟨q.URL⟩ := h.symm.trans hu
      subst hv2
      exact ⟨⟨q.URL⟩, hv, rfl⟩
  · intro hno
    have : some (⟨q.URL⟩ : URL) = some (L.JoinPath baseURL "/auth") :=
      hu.symm.trans (h2 hno)
    exact congrArg URL.str (Option.some.inj this)

/-- Without options that name a URL or a client, the request of an exchange can be sent
as soon as the client has a base URL and an HTTP client and the request can be built. -/
theorem CanSend_of_plain (L : Lib) (ctx : Context) (c : client) (path : String)
    (opts : List ClientOption) (baseURL : URL) (cl : HttpClient)
    (hb : c.baseURL = some baseURL) (hcl : c.client = some cl)
    (hnu : ∀ v, ClientOption.urlOption v ∉ opts)
    (hnc : ∀ v, ClientOption.customClientOption v ∉ opts)
    (he : L.NewRequestError ctx "POST" (L.JoinPath baseURL path).str = none) :
    CanSend L ctx c path opts :=
  ⟨baseURL, L.JoinPath baseURL path, cl, hb,
    (foldl_applyRequestOption_u opts _).2 hnu,
    (foldl_applyRequestOption_cl opts _ hnc).trans hcl, he⟩

/-- On the refresh path, a response of `RefreshToken` whose access token decodes is
stored: `InitAuth` returns nil and only `accessToken` and its expiry change. -/
theorem InitAuth_refresh_stores (L : Lib) (ctx : Context) (c : client) (w : World)
    (opts : List ClientOption) (res : RefreshTokenResp) (t : Time)
    (hA : c.accessTokenExpiresAt.After (w.clock w.reads) = false)
    (hR : c.refreshTokenExpiresAt.After (w.clock (w.reads + 1)) = true)
    (hr : (RefreshToken L ctx c (renewalWorld c w) opts).out = .ret (.ok res))
    (hp : parseTokenTstamp L res.Data.AccessToken = .ret (t, none)) :
    (InitAuth L ctx c w opts).out = .ret none ∧
    (InitAuth L ctx c w opts).c =
      { c with accessToken := res.Data.AccessToken, accessTokenExpiresAt := t } := by
  rw [InitAuth_refresh_branch L ctx c w opts hA hR]
  obtain ⟨hc, -, -⟩ := RefreshToken_frame L ctx c (renewalWorld c w) opts
  rcases hr0 : RefreshToken L ctx c (renewalWorld c w) opts with ⟨c1, w2, out⟩
  rw [hr0] at hc hr
  simp only [] at hc hr
  subst hc hr
  simp [hp]

/-- On the full authentication path, a response of `Auth` whose two tokens decode is
stored: `InitAuth` returns nil and the two tokens and their expiries are the new ones. -/
theorem InitAuth_auth_stores (L : Lib) (ctx : Context) (c : client) (w : World)
    (opts : List ClientOption) (res : AuthResp) (t t2 : Time)
    (hA : c.accessTokenExpiresAt.After (w.clock w.reads) = false)
    (hR : c.refreshTokenExpiresAt.After (w.clock (w.reads + 1)) = false)
    (hr : (Auth L ctx c (authWorld c w) opts).out = .ret (.ok res))
    (hp : parseTokenTstamp L res.Data.AccessToken = .ret (t, none))
    (hp2 : parseTokenTstamp L res.Data.RefreshToken = .ret (t2, none)) :
    (InitAuth L ctx c w opts).out = .ret none ∧
    (InitAuth L ctx c w opts).c =
      { c with accessToken := res.Data.AccessToken, accessTokenExpiresAt := t,
               refreshToken := res.Data.RefreshToken, refreshTokenExpiresAt := t2 } := by
  rw [InitAuth_auth_branch L ctx c w opts hA hR]
  obtain ⟨hc, -, -⟩ := Auth_frame L ctx c (authWorld c w) opts
  rcases hr0 : Auth L ctx c (authWorld c w) opts with ⟨c1, w3, out⟩
  rw [hr0] at hc hr
  simp only [] at hc hr
  subst hc hr
  simp [hp, hp2]

/-- The renewal of the sample session against a server that hands out `tokenExp`:
`RefreshToken`, called where `InitAuth` calls it, returns the response. -/
theorem RefreshToken_sample_renewal :
    (RefreshToken sampleLib sampleCtx
        (sessionAccessExpired (serverReplying 200 "200 OK" bodyRefreshOk))
        (renewalWorld (sessionAccessExpired (serverReplying 200 "200 OK" bodyRefreshOk))
          (sampleWorld sampleNow)) []).out
      = .ret (.ok { Data := { AccessToken := tokenExp } }) := by
  rw [RefreshToken]
  simp [setRequestParams_false, newRequest, httpDo, sessionAccessExpired, sampleClient,
    requestVars, sampleLib, serverReplying, sampleUnmarshalRefreshToken, bodyRefreshOk,
    StatusOK, MethodPost, setHeaders, APIV2BaseURL]

/-- The first authentication of the sample client against a server that hands out
`tokenExp` and `tokenRefresh`: `Auth`, called where `InitAuth` calls it, returns the
response. -/
theorem Auth_sample_in_InitAuth :
    (Auth sampleLib sampleCtx (sessionEmpty (serverReplying 200 "200 OK" bodyAuthOk))
        (authWorld (sessionEmpty (serverReplying 200 "200 OK" bodyAuthOk))
          (sampleWorld sampleNow)) []).out
      = .ret (.ok { Data := { AccessToken := tokenExp, RefreshToken := tokenRefresh } }) := by
  rw [Auth]
  simp [setRequestParams_false, newRequest, httpDo, sessionEmpty, emptyClient,
    requestVars, sampleLib, serverReplying, sampleUnmarshalAuth, bodyAuthOk,
    StatusOK, MethodPost, setHeaders, APIV2BaseURL]

/-! ## The renewal decision of `InitAuth` -/

/-- C1 (fast path). When `accessTokenExpiresAt` is strictly after the clock reading that
`InitAuth` takes, `InitAuth` returns nil, neither `Auth` nor `RefreshToken` is called, no
request is sent, and the client (tokens and expiry instants included) is unchanged.
Calling it again on the resulting client and world, with the access token still valid
at the next clock reading, is again such a no-op. -/
theorem InitAuth_fast_path (L : Lib) (ctx : Context) (c : client) (w : World)
    (opts : List ClientOption)
    (h : c.accessTokenExpiresAt.After (w.clock w.reads) = true) :
    (InitAuth L ctx c w opts).out = .ret none ∧
    (InitAuth L ctx c w opts).w.calls = w.calls ∧
    (InitAuth L ctx c w opts).w.sent = w.sent ∧
    (InitAuth L ctx c w opts).c = c ∧
    (c.accessTokenExpiresAt.After (w.clock (w.reads + 1)) = true →
      (InitAuth L ctx (InitAuth L ctx c w opts).c (InitAuth L ctx c w opts).w opts).out
          = .ret none ∧
      (InitAuth L ctx (InitAuth L ctx c w opts).c (InitAuth L ctx c w opts).w opts).w.calls
          = w.calls ∧
      (InitAuth L ctx (InitAuth L ctx c w opts).c (InitAuth L ctx c w opts).w opts).w.sent
          = w.sent ∧
      (InitAuth L ctx (InitAuth L ctx c w opts).c (InitAuth L ctx c w opts).w opts).c = c) := by
  rw [InitAuth_fast_branch L ctx c w opts h]
  refine ⟨rfl, rfl, rfl, rfl, ?_⟩
  intro h2
  rw [InitAuth_fast_branch L ctx c (timeNow w).2 opts h2]
  exact ⟨rfl, rfl, rfl, rfl⟩

/-- Scenario C of the specification, an instance of `InitAuth_fast_path`: a session valid
for another hour. -/
theorem InitAuth_fast_path_witness :
    sessionValid.accessTokenExpiresAt.After
        ((sampleWorld sampleNow).clock (sampleWorld sampleNow).reads) = true ∧
    (InitAuth sampleLib sampleCtx sessionValid (sampleWorld sampleNow) []).out = .ret none ∧
    (InitAuth sampleLib sampleCtx sessionValid (sampleWorld sampleNow) []).w.calls = [] ∧
    (InitAuth sampleLib sampleCtx sessionValid (sampleWorld sampleNow) []).w.sent = [] ∧
    (InitAuth sampleLib sampleCtx sessionValid (sampleWorld sampleNow) []).c = sessionValid :=
  have h := InitAuth_fast_path sampleLib sampleCtx sessionValid (sampleWorld sampleNow) []
    (by decide)
  ⟨by decide, h.1, h.2.1, h.2.2.1, h.2.2.2.1⟩

/-- C2 (refresh preferred). When `accessTokenExpiresAt` is not strictly after the first
clock reading and `refreshTokenExpiresAt` is strictly after the second one, `InitAuth`
makes exactly one call, to `RefreshToken` and not to `Auth`. At most one request is sent;
it is a POST whose body is the JSON text with the quoted cached refresh token, to the
base URL joined with "/refresh-token" (or to the URL of a `urlOption`), and exactly one
is sent when the request can be built and handed to a client. When `RefreshToken`
returns a response whose access token decodes, `InitAuth` returns nil, `accessToken` is
that token, `accessTokenExpiresAt` is the instant `parseTokenTstamp` returns for it, and
`refreshToken` and `refreshTokenExpiresAt` keep their values, whatever refresh token the
response carries; and `InitAuth` returns nil in no other way. -/
theorem InitAuth_refresh_preferred (L : Lib) (ctx : Context) (c : client) (w : World)
    (opts : List ClientOption)
    (hA : c.accessTokenExpiresAt.After (w.clock w.reads) = false)
    (hR : c.refreshTokenExpiresAt.After (w.clock (w.reads + 1)) = true) :
    (InitAuth L ctx c w opts).w.calls = w.calls ++ [Call.RefreshToken] ∧
    ((InitAuth L ctx c w opts).w.sent = w.sent ∨
      ∃ q baseURL, (InitAuth L ctx c w opts).w.sent = w.sent ++ [q] ∧
        c.baseURL = some baseURL ∧ q.Method = "POST" ∧
        q.Body = some ("\x7b\"data\": \x7b\"refreshToken\": " ++ L.Quote c.refreshToken
          ++ "\x7d \x7d") ∧
        (q.URL = (L.JoinPath baseURL "/refresh-token").str ∨
          ∃ v, ClientOption.urlOption (some v) ∈ opts ∧ q.URL = v.str) ∧
        ((∀ v, ClientOption.urlOption v ∉ opts) →
          q.URL = (L.JoinPath baseURL "/refresh-token").str)) ∧
    (∀ baseURL cl, c.baseURL = some baseURL → c.client = some cl →
      (∀ v, ClientOption.urlOption v ∉ opts) →
      (∀ v, ClientOption.customClientOption v ∉ opts) →
      L.NewRequestError ctx "POST" (L.JoinPath baseURL "/refresh-token").str = none →
      ∃ q, (InitAuth L ctx c w opts).w.sent = w.sent ++ [q] ∧ q.Method = "POST" ∧
        q.URL = (L.JoinPath baseURL "/refresh-token").str ∧
        q.Body = some ("\x7b\"data\": \x7b\"refreshToken\": " ++ L.Quote c.refreshToken
          ++ "\x7d \x7d")) ∧
    (CanSend L ctx c "/refresh-token" opts →
      ∃ q, (InitAuth L ctx c w opts).w.sent = w.sent ++ [q] ∧
        IsRefreshTokenRequest L ctx c opts q) ∧
    (∀ res t, (RefreshToken L ctx c (renewalWorld c w) opts).out = .ret (.ok res) →
      parseTokenTstamp L res.Data.AccessToken = .ret (t, none) →
      (InitAuth L ctx c w opts).out = .ret none ∧
      (InitAuth L ctx c w opts).c.accessToken = res.Data.AccessToken ∧
      (InitAuth L ctx c w opts).c.accessTokenExpiresAt = t ∧
      (InitAuth L ctx c w opts).c.refreshToken = c.refreshToken ∧
      (InitAuth L ctx c w opts).c.refreshTokenExpiresAt = c.refreshTokenExpiresAt) ∧
    ((InitAuth L ctx c w opts).out = .ret none →
      ∃ res, (RefreshToken L ctx c (renewalWorld c w) opts).out = .ret (.ok res) ∧
        (InitAuth L ctx c w opts).c.accessToken = res.Data.AccessToken ∧
        parseTokenTstamp L res.Data.AccessToken =
          .ret ((InitAuth L ctx c w opts).c.accessTokenExpiresAt, none) ∧
        (InitAuth L ctx c w opts).c.refreshToken = c.refreshToken ∧
        (InitAuth L ctx c w opts).c.refreshTokenExpiresAt = c.refreshTokenExpiresAt) := by
  obtain ⟨hws, hwc⟩ := InitAuth_refresh_world L ctx c w opts hA hR
  obtain ⟨-, hcalls, hsent⟩ := RefreshToken_frame L ctx c (renewalWorld c w) opts
  simp only [renewalWorld_calls, renewalWorld_sent] at hcalls hsent
  have hsends : CanSend L ctx c "/refresh-token" opts →
      ∃ q, (InitAuth L ctx c w opts).w.sent = w.sent ++ [q] ∧
        IsRefreshTokenRequest L ctx c opts q := by
    intro hcan
    rw [hws]
    simpa using RefreshToken_sends L ctx c (renewalWorld c w) opts hcan
  refine ⟨hwc.trans hcalls, ?_, ?_, hsends, ?_, ?_⟩
  · rw [hws]
    rcases hsent with h | ⟨q, h, hq⟩
    · exact Or.inl h
    · obtain ⟨baseURL, hb, -, hm, hbody, hu1, hu2⟩ :=
        IsRefreshTokenRequest_fields L ctx c opts q hq
      exact Or.inr ⟨q, baseURL, h, hb, hm, hbody, hu1, hu2⟩
  · intro baseURL cl hb hcl hnu hnc he
    obtain ⟨q, h, hq⟩ := hsends
      (CanSend_of_plain L ctx c "/refresh-token" opts baseURL cl hb hcl hnu hnc he)
    obtain ⟨baseURL2, hb2, -, hm, hbody, -, hu2⟩ :=
      IsRefreshTokenRequest_fields L ctx c opts q hq
    have hbb : baseURL2 = baseURL := Option.some.inj (hb2.symm.trans hb)
    subst hbb
    exact ⟨q, h, hm, hu2 hnu, hbody⟩
  · intro res t hr hp
    obtain ⟨hout, hc⟩ := InitAuth_refresh_stores L ctx c w opts res t hA hR hr hp
    rw [hc]
    exact ⟨hout, rfl, rfl, rfl, rfl⟩
  · intro hout
    rcases InitAuth_refresh_returns L ctx c w opts none hA hR hout with
      ⟨_, he, _⟩ | ⟨res, t, hr, hp, hc⟩
    · simp at he
    · rw [hc]
      exact ⟨res, hr, rfl, hp, rfl, rfl⟩

/-- Scenario B of the specification, an instance of `InitAuth_refresh_preferred`: the
access token has expired, the refresh token is valid, and the server answers the one
request with a new access token, which is stored with its decoded expiry. -/
theorem InitAuth_refresh_preferred_witness :
    (sessionAccessExpired (serverReplying 200 "200 OK" bodyRefreshOk)).accessTokenExpiresAt.After
        ((sampleWorld sampleNow).clock (sampleWorld sampleNow).reads) = false ∧
    (sessionAccessExpired (serverReplying 200 "200 OK" bodyRefreshOk)).refreshTokenExpiresAt.After
        ((sampleWorld sampleNow).clock ((sampleWorld sampleNow).reads + 1)) = true ∧
    (InitAuth sampleLib sampleCtx (sessionAccessExpired (serverReplying 200 "200 OK" bodyRefreshOk))
        (sampleWorld sampleNow) []).w.calls = [Call.RefreshToken] ∧
    (∃ q, (InitAuth sampleLib sampleCtx
          (sessionAccessExpired (serverReplying 200 "200 OK" bodyRefreshOk))
          (sampleWorld sampleNow) []).w.sent = [q] ∧
      q.Method = "POST" ∧ q.URL = "https://sb-api.efashe.com/rw/v2/refresh-token" ∧
      q.Body = some ("\x7b\"data\": \x7b\"refreshToken\": \"" ++ tokenRefresh ++ "\"\x7d \x7d")) ∧
    (InitAuth sampleLib sampleCtx (sessionAccessExpired (serverReplying 200 "200 OK" bodyRefreshOk))
        (sampleWorld sampleNow) []).out = .ret none ∧
    (InitAuth sampleLib sampleCtx (sessionAccessExpired (serverReplying 200 "200 OK" bodyRefreshOk))
        (sampleWorld sampleNow) []).c.accessToken = tokenExp ∧
    (InitAuth sampleLib sampleCtx (sessionAccessExpired (serverReplying 200 "200 OK" bodyRefreshOk))
        (sampleWorld sampleNow) []).c.accessTokenExpiresAt = Time.Unix 1700003600 ∧
    (InitAuth sampleLib sampleCtx (sessionAccessExpired (serverReplying 200 "200 OK" bodyRefreshOk))
        (sampleWorld sampleNow) []).c.refreshToken = tokenRefresh ∧
    (InitAuth sampleLib sampleCtx (sessionAccessExpired (serverReplying 200 "200 OK" bodyRefreshOk))
        (sampleWorld sampleNow) []).c.refreshTokenExpiresAt = Time.Unix 1700086400 := by
  have h := InitAuth_refresh_preferred sampleLib sampleCtx
    (sessionAccessExpired (serverReplying 200 "200 OK" bodyRefreshOk))
    (sampleWorld sampleNow) [] (by decide) (by decide)
  obtain ⟨q, hs, hm, hu, hb⟩ := h.2.2.1 ⟨APIV2BaseURL⟩
    (serverReplying 200 "200 OK" bodyRefreshOk) rfl rfl
    (fun _ hv => absurd hv (List.not_mem_nil _)) (fun _ hv => absurd hv (List.not_mem_nil _)) rfl
  obtain ⟨hout, h1, h2, h3, h4⟩ := h.2.2.2.2.1 { Data := { AccessToken := tokenExp } }
    (Time.Unix 1700003600) RefreshToken_sample_renewal rfl
  exact ⟨by decide, by decide, h.1, ⟨q, hs, hm, hu.trans (by decide), hb.trans (by decide)⟩,
    hout, h1, h2, h3, h4⟩

/-- C3 (full authentication). When `accessTokenExpiresAt` is not strictly after the first
clock reading and `refreshTokenExpiresAt` is not strictly after the second one (as for a
client that never authenticated, whose instants are zero), `InitAuth` makes exactly one
call, to `Auth` and not to `RefreshToken`. At most one request is sent; it is a POST
whose body is the JSON text with the quoted `apiKey` and `apiSecret`, to the base URL
joined with "/auth" (or to the URL of a `urlOption`), and exactly one is sent when the
request can be built and handed to a client. When `Auth` returns a response whose two
tokens decode, `InitAuth` returns nil, `accessToken` and `refreshToken` are the tokens
of the response and each expiry is the instant `parseTokenTstamp` returns for its
token; and `InitAuth` returns nil in no other way. -/
theorem InitAuth_full_auth (L : Lib) (ctx : Context) (c : client) (w : World)
    (opts : List ClientOption)
    (hA : c.accessTokenExpiresAt.After (w.clock w.reads) = false)
    (hR : c.refreshTokenExpiresAt.After (w.clock (w.reads + 1)) = false) :
    (InitAuth L ctx c w opts).w.calls = w.calls ++ [Call.Auth] ∧
    ((InitAuth L ctx c w opts).w.sent = w.sent ∨
      ∃ q baseURL, (InitAuth L ctx c w opts).w.sent = w.sent ++ [q] ∧
        c.baseURL = some baseURL ∧ q.Method = "POST" ∧
        q.Body = some ("\x7b\"api_key\": " ++ L.Quote c.apiKey ++ ", \"api_secret\": "
          ++ L.Quote c.apiSecret ++ "\x7d") ∧
        (q.URL = (L.JoinPath baseURL "/auth").str ∨
          ∃ v, ClientOption.urlOption (some v) ∈ opts ∧ q.URL = v.str) ∧
        ((∀ v, ClientOption.urlOption v ∉ opts) → q.URL = (L.JoinPath baseURL "/auth").str)) ∧
    (∀ baseURL cl, c.baseURL = some baseURL → c.client = some cl →
      (∀ v, ClientOption.urlOption v ∉ opts) →
      (∀ v, ClientOption.customClientOption v ∉ opts) →
      L.NewRequestError ctx "POST" (L.JoinPath baseURL "/auth").str = none →
      ∃ q, (InitAuth L ctx c w opts).w.sent = w.sent ++ [q] ∧ q.Method = "POST" ∧
        q.URL = (L.JoinPath baseURL "/auth").str ∧
        q.Body = some ("\x7b\"api_key\": " ++ L.Quote c.apiKey ++ ", \"api_secret\": "
          ++ L.Quote c.apiSecret ++ "\x7d")) ∧
    (CanSend L ctx c "/auth" opts →
      ∃ q, (InitAuth L ctx c w opts).w.sent = w.sent ++ [q] ∧ IsAuthRequest L ctx c opts q) ∧
    (∀ res t t2, (Auth L ctx c (authWorld c w) opts).out = .ret (.ok res) →
      parseTokenTstamp L res.Data.AccessToken = .ret (t, none) →
      parseTokenTstamp L res.Data.RefreshToken = .ret (t2, none) →
      (InitAuth L ctx c w opts).out = .ret none ∧
      (InitAuth L ctx c w opts).c.accessToken = res.Data.AccessToken ∧
      (InitAuth L ctx c w opts).c.accessTokenExpiresAt = t ∧
      (InitAuth L ctx c w opts).c.refreshToken = res.Data.RefreshToken ∧
      (InitAuth L ctx c w opts).c.refreshTokenExpiresAt = t2) ∧
    ((InitAuth L ctx c w opts).out = .ret none →
      ∃ res, (Auth L ctx c (authWorld c w) opts).out = .ret (.ok res) ∧
        (InitAuth L ctx c w opts).c.accessToken = res.Data.AccessToken ∧
        (InitAuth L ctx c w opts).c.refreshToken = res.Data.RefreshToken ∧
        parseTokenTstamp L res.Data.AccessToken =
          .ret ((InitAuth L ctx c w opts).c.accessTokenExpiresAt, none) ∧
        parseTokenTstamp L res.Data.RefreshToken =
          .ret ((InitAuth L ctx c w opts).c.refreshTokenExpiresAt, none)) := by
  obtain ⟨hws, hwc⟩ := InitAuth_auth_world L ctx c w opts hA hR
  obtain ⟨-, hcalls, hsent⟩ := Auth_frame L ctx c (authWorld c w) opts
  simp only [authWorld_calls, authWorld_sent] at hcalls hsent
  have hsends : CanSend L ctx c "/auth" opts →
      ∃ q, (InitAuth L ctx c w opts).w.sent = w.sent ++ [q] ∧
        IsAuthRequest L ctx c opts q := by
    intro hcan
    rw [hws]
    simpa using Auth_sends L ctx c (authWorld c w) opts hcan
  refine ⟨hwc.trans hcalls, ?_, ?_, hsends, ?_, ?_⟩
  · rw [hws]
    rcases hsent with h | ⟨q, h, hq⟩
    · exact Or.inl h
    · obtain ⟨baseURL, hb, -, hm, hbody, hu1, hu2⟩ := IsAuthRequest_fields L ctx c opts q hq
      exact Or.inr ⟨q, baseURL, h, hb, hm, hbody, hu1, hu2⟩
  · intro baseURL cl hb hcl hnu hnc he
    obtain ⟨q, h, hq⟩ := hsends
      (CanSend_of_plain L ctx c "/auth" opts baseURL cl hb hcl hnu hnc he)
    obtain ⟨baseURL2, hb2, -, hm, hbody, -, hu2⟩ := IsAuthRequest_fields L ctx c opts q hq
    have hbb : baseURL2 = baseURL := Option.some.inj (hb2.symm.trans hb)
    subst hbb
    exact ⟨q, h, hm, hu2 hnu, hbody⟩
  · intro res t t2 hr hp hp2
    obtain ⟨hout, hc⟩ := InitAuth_auth_stores L ctx c w opts res t t2 hA hR hr hp hp2
    rw [hc]
    exact ⟨hout, rfl, rfl, rfl, rfl⟩
  · intro hout
    rcases InitAuth_auth_returns L ctx c w opts none hA hR hout with
      ⟨_, he, _⟩ | ⟨_, _, _, he, _⟩ | ⟨_, _, _, _, he, _⟩ | ⟨res, t, t2, _, ha, hp, hp2, hc⟩
    · simp at he
    · simp at he
    · simp at he
    · rw [hc]
      exact ⟨res, ha, rfl, rfl, hp, hp2⟩

/-- Scenario A of the specification, an instance of `InitAuth_full_auth`: a client that
never authenticated sends its key and secret once, and the two tokens of the answer are
stored with their decoded expiries. -/
theorem InitAuth_full_auth_witness :
    (sessionEmpty (serverReplying 200 "200 OK" bodyAuthOk)).accessTokenExpiresAt.After
        ((sampleWorld sampleNow).clock (sampleWorld sampleNow).reads) = false ∧
    (sessionEmpty (serverReplying 200 "200 OK" bodyAuthOk)).refreshTokenExpiresAt.After
        ((sampleWorld sampleNow).clock ((sampleWorld sampleNow).reads + 1)) = false ∧
    (InitAuth sampleLib sampleCtx (sessionEmpty (serverReplying 200 "200 OK" bodyAuthOk))
        (sampleWorld sampleNow) []).w.calls = [Call.Auth] ∧
    (∃ q, (InitAuth sampleLib sampleCtx (sessionEmpty (serverReplying 200 "200 OK" bodyAuthOk))
          (sampleWorld sampleNow) []).w.sent = [q] ∧
      q.Method = "POST" ∧ q.URL = "https://sb-api.efashe.com/rw/v2/auth" ∧
      q.Body = some "\x7b\"api_key\": \"k\", \"api_secret\": \"s\"\x7d") ∧
    (InitAuth sampleLib sampleCtx (sessionEmpty (serverReplying 200 "200 OK" bodyAuthOk))
        (sampleWorld sampleNow) []).out = .ret none ∧
    (InitAuth sampleLib sampleCtx (sessionEmpty (serverReplying 200 "200 OK" bodyAuthOk))
        (sampleWorld sampleNow) []).c.accessToken = tokenExp ∧
    (InitAuth sampleLib sampleCtx (sessionEmpty (serverReplying 200 "200 OK" bodyAuthOk))
        (sampleWorld sampleNow) []).c.accessTokenExpiresAt = Time.Unix 1700003600 ∧
    (InitAuth sampleLib sampleCtx (sessionEmpty (serverReplying 200 "200 OK" bodyAuthOk))
        (sampleWorld sampleNow) []).c.refreshToken = tokenRefresh ∧
    (InitAuth sampleLib sampleCtx (sessionEmpty (serverReplying 200 "200 OK" bodyAuthOk))
        (sampleWorld sampleNow) []).c.refreshTokenExpiresAt = Time.Unix 1700086400 := by
  have h := InitAuth_full_auth sampleLib sampleCtx
    (sessionEmpty (serverReplying 200 "200 OK" bodyAuthOk))
    (sampleWorld sampleNow) [] (by decide) (by decide)
  obtain ⟨q, hs, hm, hu, hb⟩ := h.2.2.1 ⟨APIV2BaseURL⟩
    (serverReplying 200 "200 OK" bodyAuthOk) rfl rfl
    (fun _ hv => absurd hv (List.not_mem_nil _)) (fun _ hv => absurd hv (List.not_mem_nil _)) rfl
  obtain ⟨hout, h1, h2, h3, h4⟩ := h.2.2.2.2.1
    { Data := { AccessToken := tokenExp, RefreshToken := tokenRefresh } }
    (Time.Unix 1700003600) (Time.Unix 1700086400) Auth_sample_in_InitAuth rfl rfl
  exact ⟨by decide, by decide, h.1, ⟨q, hs, hm, hu.trans (by decide), hb.trans (by decide)⟩,
    hout, h1, h2, h3, h4⟩

/-- C4 (atomicity on exchange failure). On either renewal path, when the exchange that
`InitAuth` invokes (`RefreshToken` while the refresh token is live, `Auth` otherwise)
returns the error `err`, `InitAuth` returns that same `err`, the exchange was called
once and nothing else was (no retry), and the client, with its two tokens and two expiry
instants, is the one before the call. -/
theorem InitAuth_exchange_failure (L : Lib) (ctx : Context) (c : client) (w : World)
    (opts : List ClientOption) (err : Error)
    (hA : c.accessTokenExpiresAt.After (w.clock w.reads) = false)
    (hX : (c.refreshTokenExpiresAt.After (w.clock (w.reads + 1)) = true ∧
            (RefreshToken L ctx c (renewalWorld c w) opts).out = .ret (.error err)) ∨
          (c.refreshTokenExpiresAt.After (w.clock (w.reads + 1)) = false ∧
            (Auth L ctx c (authWorld c w) opts).out = .ret (.error err))) :
    (InitAuth L ctx c w opts).out = .ret (some err) ∧
    (InitAuth L ctx c w opts).c = c ∧
    ((InitAuth L ctx c w opts).w.calls = w.calls ++ [Call.RefreshToken] ∨
      (InitAuth L ctx c w opts).w.calls = w.calls ++ [Call.Auth]) := by
  rcases hX with ⟨hR, hout⟩ | ⟨hR, hout⟩
  · rw [InitAuth_refresh_branch L ctx c w opts hA hR]
    obtain ⟨hc, hcalls, -⟩ := RefreshToken_frame L ctx c (renewalWorld c w) opts
    rcases hr : RefreshToken L ctx c (renewalWorld c w) opts with ⟨c1, w2, out⟩
    rw [hr] at hc hcalls hout
    simp only [renewalWorld_calls] at hc hcalls hout
    subst hc hout
    exact ⟨rfl, rfl, Or.inl hcalls⟩
  · rw [InitAuth_auth_branch L ctx c w opts hA hR]
    obtain ⟨hc, hcalls, -⟩ := Auth_frame L ctx c (authWorld c w) opts
    rcases hr : Auth L ctx c (authWorld c w) opts with ⟨c1, w3, out⟩
    rw [hr] at hc hcalls hout
    simp only [authWorld_calls] at hc hcalls hout
    subst hc hout
    exact ⟨rfl, rfl, Or.inr hcalls⟩

/-- An instance of `InitAuth_exchange_failure`: the server cannot be reached while the
access token has expired and the refresh token is valid. -/
theorem InitAuth_exchange_failure_witness :
    (sessionAccessExpired serverDown).accessTokenExpiresAt.After
        ((sampleWorld sampleNow).clock (sampleWorld sampleNow).reads) = false ∧
    (RefreshToken sampleLib sampleCtx (sessionAccessExpired serverDown)
        (renewalWorld (sessionAccessExpired serverDown) (sampleWorld sampleNow)) []).out
      = .ret (.error (Error.External "connection refused")) ∧
    (InitAuth sampleLib sampleCtx (sessionAccessExpired serverDown) (sampleWorld sampleNow) []).out
      = .ret (some (Error.External "connection refused")) ∧
    (InitAuth sampleLib sampleCtx (sessionAccessExpired serverDown) (sampleWorld sampleNow) []).c
      = sessionAccessExpired serverDown :=
  have h := InitAuth_exchange_failure sampleLib sampleCtx (sessionAccessExpired serverDown)
    (sampleWorld sampleNow) [] (Error.External "connection refused") (by decide)
    (Or.inl ⟨by decide, RefreshToken_serverDown⟩)
  ⟨by decide, RefreshToken_serverDown, h.1, h.2.1⟩

/-! ## Failure and success of `InitAuth` -/

/-- C5, as the code has it: a run of `InitAuth` that returns an error (the refresh token
received from `Auth` cannot be decoded) after replacing the access token, the refresh
token being the one before the call. -/
theorem InitAuth_error_after_update :
    (InitAuth sampleLib sampleCtx (sessionEmpty (serverReplying 200 "200 OK" bodyAuthBadRefresh))
        (sampleWorld sampleNow) []).out = .ret (some (Error.External "token is malformed")) ∧
    (InitAuth sampleLib sampleCtx (sessionEmpty (serverReplying 200 "200 OK" bodyAuthBadRefresh))
        (sampleWorld sampleNow) []).c.accessToken
      ≠ (sessionEmpty (serverReplying 200 "200 OK" bodyAuthBadRefresh)).accessToken ∧
    (InitAuth sampleLib sampleCtx (sessionEmpty (serverReplying 200 "200 OK" bodyAuthBadRefresh))
        (sampleWorld sampleNow) []).c.refreshToken
      = (sessionEmpty (serverReplying 200 "200 OK" bodyAuthBadRefresh)).refreshToken := by
  obtain ⟨h1, h2⟩ := InitAuth_sample_bad_refresh_token
  refine ⟨h1, ?_, ?_⟩
  · rw [h2]; simp [sessionEmpty, emptyClient, tokenExp]
  · rw [h2]

/-- C5, amended. When `InitAuth` returns the error `err` on the full authentication path,
or on the refresh path because `RefreshToken` returned an error, then either the client
is the one before the call, or `Auth` had succeeded, the access token of its response was
decoded, its refresh token was not (`err` is the error of that decoding), and the client
differs from the one before the call in `accessToken` and `accessTokenExpiresAt` only,
which are that access token and its decoded expiry. -/
theorem InitAuth_error_update (L : Lib) (ctx : Context) (c : client) (w : World)
    (opts : List ClientOption) (err : Error)
    (hout : (InitAuth L ctx c w opts).out = .ret (some err))
    (hX : c.refreshTokenExpiresAt.After (w.clock (w.reads + 1)) = false ∨
      ∃ e, (RefreshToken L ctx c (renewalWorld c w) opts).out = .ret (.error e)) :
    (InitAuth L ctx c w opts).c = c ∨
    ∃ res t t2, (Auth L ctx c (authWorld c w) opts).out = .ret (.ok res) ∧
      parseTokenTstamp L res.Data.AccessToken = .ret (t, none) ∧
      parseTokenTstamp L res.Data.RefreshToken = .ret (t2, some err) ∧
      (InitAuth L ctx c w opts).c =
        { c with accessToken := res.Data.AccessToken, accessTokenExpiresAt := t } := by
  cases hA : c.accessTokenExpiresAt.After (w.clock w.reads) with
  | true =>
    rw [InitAuth_fast_branch L ctx c w opts hA] at hout
    simp at hout
  | false =>
    cases hR : c.refreshTokenExpiresAt.After (w.clock (w.reads + 1)) with
    | false =>
      rcases InitAuth_auth_returns L ctx c w opts (some err) hA hR hout with
        ⟨_, _, _, hc⟩ | ⟨_, _, _, _, _, _, hc⟩ | ⟨res, t, t2, e, he, ha, hp, hp2, hc⟩ |
        ⟨_, _, _, he, _⟩
      · exact Or.inl hc
      · exact Or.inl hc
      · simp only [Option.some.injEq] at he
        subst he
        exact Or.inr ⟨res, t, t2, ha, hp, hp2, hc⟩
      · simp at he
    | true =>
      rcases hX with hX | ⟨e, hX⟩
      · rw [hR] at hX
        simp at hX
      · rcases InitAuth_refresh_returns L ctx c w opts (some err) hA hR hout with
          ⟨_, _, _, hc⟩ | ⟨res, t, hr, _, _⟩
        · exact Or.inl hc
        · rw [hr] at hX
          simp at hX

/-- An instance of `InitAuth_error_update`: the authentication response of the sample
run carries a refresh token that cannot be decoded. -/
theorem InitAuth_error_update_witness :
    (InitAuth sampleLib sampleCtx (sessionEmpty (serverReplying 200 "200 OK" bodyAuthBadRefresh))
        (sampleWorld sampleNow) []).out = .ret (some (Error.External "token is malformed")) ∧
    (sessionEmpty (serverReplying 200 "200 OK" bodyAuthBadRefresh)).refreshTokenExpiresAt.After
        ((sampleWorld sampleNow).clock ((sampleWorld sampleNow).reads + 1)) = false ∧
    ((InitAuth sampleLib sampleCtx (sessionEmpty (serverReplying 200 "200 OK" bodyAuthBadRefresh))
        (sampleWorld sampleNow) []).c = sessionEmpty (serverReplying 200 "200 OK" bodyAuthBadRefresh) ∨
      ∃ res t t2,
        (Auth sampleLib sampleCtx (sessionEmpty (serverReplying 200 "200 OK" bodyAuthBadRefresh))
          (authWorld (sessionEmpty (serverReplying 200 "200 OK" bodyAuthBadRefresh))
            (sampleWorld sampleNow)) []).out = .ret (.ok res) ∧
        parseTokenTstamp sampleLib res.Data.AccessToken = .ret (t, none) ∧
        parseTokenTstamp sampleLib res.Data.RefreshToken
          = .ret (t2, some (Error.External "token is malformed")) ∧
        (InitAuth sampleLib sampleCtx
          (sessionEmpty (serverReplying 200 "200 OK" bodyAuthBadRefresh))
          (sampleWorld sampleNow) []).c =
          { sessionEmpty (serverReplying 200 "200 OK" bodyAuthBadRefresh) with
            accessToken := res.Data.AccessToken, accessTokenExpiresAt := t }) :=
  ⟨InitAuth_sample_bad_refresh_token.1, by decide,
    InitAuth_error_update sampleLib sampleCtx
      (sessionEmpty (serverReplying 200 "200 OK" bodyAuthBadRefresh)) (sampleWorld sampleNow) []
      (Error.External "token is malformed") InitAuth_sample_bad_refresh_token.1
      (Or.inl (by decide))⟩

/-- C9, as the code has it: a run of `InitAuth` that returns nil on the refresh path
while the access token it stored expired before the clock readings of the run. -/
theorem InitAuth_success_with_expired_token :
    (InitAuth sampleLib sampleCtx
        (sessionAccessExpired (serverReplying 200 "200 OK" bodyRefreshExpired))
        (sampleWorld sampleNow) []).out = .ret none ∧
    (InitAuth sampleLib sampleCtx
        (sessionAccessExpired (serverReplying 200 "200 OK" bodyRefreshExpired))
        (sampleWorld sampleNow) []).c.accessTokenExpiresAt.After
      ((sampleWorld sampleNow).clock (sampleWorld sampleNow).reads) = false := by
  obtain ⟨h1, h2⟩ := InitAuth_sample_expired_renewal
  refine ⟨h1, ?_⟩
  rw [h2]
  decide

/-- C9, amended. When `InitAuth` returns nil, either it took the fast path, the client is
unchanged and `accessTokenExpiresAt` is strictly after the clock reading, or it renewed:
`accessToken` is the access token that `RefreshToken` or `Auth` returned and
`accessTokenExpiresAt` is what `parseTokenTstamp` returns for it, whatever the clock. -/
theorem InitAuth_success_expiry (L : Lib) (ctx : Context) (c : client) (w : World)
    (opts : List ClientOption)
    (hout : (InitAuth L ctx c w opts).out = .ret none) :
    ((InitAuth L ctx c w opts).c.accessTokenExpiresAt.After (w.clock w.reads) = true ∧
      (InitAuth L ctx c w opts).c = c) ∨
    (c.accessTokenExpiresAt.After (w.clock w.reads) = false ∧
      parseTokenTstamp L (InitAuth L ctx c w opts).c.accessToken =
        .ret ((InitAuth L ctx c w opts).c.accessTokenExpiresAt, none) ∧
      ((∃ res, (RefreshToken L ctx c (renewalWorld c w) opts).out = .ret (.ok res) ∧
          (InitAuth L ctx c w opts).c.accessToken = res.Data.AccessToken) ∨
       (∃ res, (Auth L ctx c (authWorld c w) opts).out = .ret (.ok res) ∧
          (InitAuth L ctx c w opts).c.accessToken = res.Data.AccessToken))) := by
  cases hA : c.accessTokenExpiresAt.After (w.clock w.reads) with
  | true =>
    left
    rw [InitAuth_fast_branch L ctx c w opts hA]
    exact ⟨hA, rfl⟩
  | false =>
    right
    refine ⟨rfl, ?_⟩
    cases hR : c.refreshTokenExpiresAt.After (w.clock (w.reads + 1)) with
    | true =>
      rcases InitAuth_refresh_returns L ctx c w opts none hA hR hout with
        ⟨_, he, _⟩ | ⟨res, t, hr, hp, hc⟩
      · simp at he
      · rw [hc]
        exact ⟨hp, Or.inl ⟨res, hr, rfl⟩⟩
    | false =>
      rcases InitAuth_auth_returns L ctx c w opts none hA hR hout with
        ⟨_, he, _⟩ | ⟨_, _, _, he, _⟩ | ⟨_, _, _, _, he, _⟩ | ⟨res, t, t2, _, ha, hp, _, hc⟩
      · simp at he
      · simp at he
      · simp at he
      · rw [hc]
        exact ⟨hp, Or.inr ⟨res, ha, rfl⟩⟩

/-- An instance of `InitAuth_success_expiry`: the sample run in which the server hands
out an expired access token. -/
theorem InitAuth_success_expiry_witness :
    (InitAuth sampleLib sampleCtx
        (sessionAccessExpired (serverReplying 200 "200 OK" bodyRefreshExpired))
        (sampleWorld sampleNow) []).out = .ret none ∧
    parseTokenTstamp sampleLib
        (InitAuth sampleLib sampleCtx
          (sessionAccessExpired (serverReplying 200 "200 OK" bodyRefreshExpired))
          (sampleWorld sampleNow) []).c.accessToken
      = .ret ((InitAuth sampleLib sampleCtx
          (sessionAccessExpired (serverReplying 200 "200 OK" bodyRefreshExpired))
          (sampleWorld sampleNow) []).c.accessTokenExpiresAt, none) := by
  refine ⟨InitAuth_sample_expired_renewal.1, ?_⟩
  rcases InitAuth_success_expiry sampleLib sampleCtx
      (sessionAccessExpired (serverReplying 200 "200 OK" bodyRefreshExpired))
      (sampleWorld sampleNow) [] InitAuth_sample_expired_renewal.1 with ⟨h, _⟩ | ⟨_, h, _⟩
  · rw [InitAuth_sample_expired_renewal.2] at h
    exact absurd h (by decide)
  · exact h

/-- The client that `NewClient` builds before its first `InitAuth` satisfies
`ExpiryProvenance`, and every call of `InitAuth` that returns, with nil or with an
error, takes a client that satisfies it to one that satisfies it. A call that panics is
not covered. -/
theorem ExpiryProvenance_invariant (L : Lib) :
    (∀ apiKey apiSecret, ExpiryProvenance L (emptyClient L apiKey apiSecret)) ∧
    ∀ (ctx : Context) (c : client) (w : World) (opts : List ClientOption) (e : Option Error),
      ExpiryProvenance L c → (InitAuth L ctx c w opts).out = .ret e →
      ExpiryProvenance L (InitAuth L ctx c w opts).c := by
  refine ⟨fun _ _ => ⟨fun h => absurd rfl h, fun h => absurd rfl h⟩, ?_⟩
  intro ctx c w opts e hinv hout
  cases hA : c.accessTokenExpiresAt.After (w.clock w.reads) with
  | true =>
    rw [InitAuth_fast_branch L ctx c w opts hA]
    exact hinv
  | false =>
    cases hR : c.refreshTokenExpiresAt.After (w.clock (w.reads + 1)) with
    | true =>
      rcases InitAuth_refresh_returns L ctx c w opts e hA hR hout with
        ⟨_, _, _, hc⟩ | ⟨res, t, _, hp, hc⟩
      · rw [hc]; exact hinv
      · rw [hc]
        refine ⟨fun hne => ?_, hinv.2⟩
        cases e with
        | none => exact hp
        | some err => exact absurd (parseTokenTstamp_error_zero L _ t err hp) hne
    | false =>
      rcases InitAuth_auth_returns L ctx c w opts e hA hR hout with
        ⟨_, _, _, hc⟩ | ⟨_, _, _, _, _, _, hc⟩ | ⟨res, t, t2, _, _, _, hp, _, hc⟩ |
        ⟨res, t, t2, _, _, hp, hp2, hc⟩
      · rw [hc]; exact hinv
      · rw [hc]; exact hinv
      · rw [hc]
        exact ⟨fun _ => hp, hinv.2⟩
      · rw [hc]
        exact ⟨fun _ => hp, fun _ => hp2⟩

/-- An instance of `ExpiryProvenance_invariant`: the first `InitAuth` of a client that
never authenticated, against a server that hands out two tokens. -/
theorem ExpiryProvenance_invariant_witness :
    ExpiryProvenance sampleLib (emptyClient sampleLib "k" "s") ∧
    (InitAuth sampleLib sampleCtx (sessionEmpty (serverReplying 200 "200 OK" bodyAuthOk))
        (sampleWorld sampleNow) []).out = .ret none ∧
    ExpiryProvenance sampleLib
      (InitAuth sampleLib sampleCtx (sessionEmpty (serverReplying 200 "200 OK" bodyAuthOk))
        (sampleWorld sampleNow) []).c :=
  ⟨(ExpiryProvenance_invariant sampleLib).1 "k" "s", InitAuth_sample_first_auth.1,
    (ExpiryProvenance_invariant sampleLib).2 sampleCtx
      (sessionEmpty (serverReplying 200 "200 OK" bodyAuthOk)) (sampleWorld sampleNow) [] none
      ((ExpiryProvenance_invariant sampleLib).1 "k" "s") InitAuth_sample_first_auth.1⟩

/-- C10, as the code has it: a run of `InitAuth` that takes a client satisfying
`ExpiryProvenance` to one that does not. The server answers the refresh with a token
that has a not-before claim and no expiration: `InitAuth` stores the token, the decoding
panics, and the stored token is left next to the expiry of the token it replaced. -/
theorem ExpiryProvenance_lost_on_panic :
    ExpiryProvenance sampleLib
      (sessionAccessExpired (serverReplying 200 "200 OK" bodyRefreshNotBefore)) ∧
    (InitAuth sampleLib sampleCtx
        (sessionAccessExpired (serverReplying 200 "200 OK" bodyRefreshNotBefore))
        (sampleWorld sampleNow) []).out = .panic ∧
    ¬ ExpiryProvenance sampleLib
      (InitAuth sampleLib sampleCtx
        (sessionAccessExpired (serverReplying 200 "200 OK" bodyRefreshNotBefore))
        (sampleWorld sampleNow) []).c := by
  obtain ⟨h1, h2⟩ := InitAuth_sample_not_before_token
  refine ⟨⟨fun _ => rfl, fun _ => rfl⟩, h1, ?_⟩
  rw [h2]
  intro hinv
  have hp := hinv.1 (by decide)
  have hpanic : parseTokenTstamp sampleLib tokenNotBefore = .panic := rfl
  simp only [] at hp
  rw [hpanic] at hp
  exact absurd hp (by simp)

/-! ## `parseTokenTstamp` -/

/-- C6, as the code has it. For a token that parses, has no expiration claim and has a
not-before claim `T2`, `parseTokenTstamp` does not return `T2`: it panics, because the
not-before date is held by a variable of the inner block and the outer, nil, `numDate`
is dereferenced. -/
theorem parseTokenTstamp_notBefore_only (L : Lib) (tokenString : String) (token : Token)
    (T2 : Time)
    (hparse : L.ParseUnverified tokenString = .ok token)
    (hexp : token.Claims.GetExpirationTime = .ok none)
    (hnbf : token.Claims.GetNotBefore = .ok (some T2)) :
    parseTokenTstamp L tokenString = .panic := by
  simp [parseTokenTstamp, hparse, hexp, hnbf]

/-- An instance of `parseTokenTstamp_notBefore_only`: the sample token whose payload is
a not-before claim. -/
theorem parseTokenTstamp_notBefore_only_witness :
    sampleLib.ParseUnverified tokenNotBefore
      = .ok ⟨⟨.ok none, .ok (some (Time.Unix 1700000000))⟩⟩ ∧
    parseTokenTstamp sampleLib tokenNotBefore = .panic :=
  ⟨rfl, parseTokenTstamp_notBefore_only sampleLib tokenNotBefore
    ⟨⟨.ok none, .ok (some (Time.Unix 1700000000))⟩⟩ (Time.Unix 1700000000) rfl rfl rfl⟩

/-- C7 (expiry extraction). For a token that parses (no signature is checked) and whose
expiration claim is the instant `T`, `parseTokenTstamp` returns `T` and no error,
whatever the not-before claim is. -/
theorem parseTokenTstamp_expiration (L : Lib) (tokenString : String) (token : Token)
    (T : Time)
    (hparse : L.ParseUnverified tokenString = .ok token)
    (hexp : token.Claims.GetExpirationTime = .ok (some T)) :
    parseTokenTstamp L tokenString = .ret (T, none) := by
  simp [parseTokenTstamp, hparse, hexp]

/-- An instance of `parseTokenTstamp_expiration`: the sample token that has both an
expiration and a not-before claim. -/
theorem parseTokenTstamp_expiration_witness :
    sampleLib.ParseUnverified tokenBoth
      = .ok ⟨⟨.ok (some (Time.Unix 1700003600)), .ok (some (Time.Unix 1700000000))⟩⟩ ∧
    parseTokenTstamp sampleLib tokenBoth = .ret (Time.Unix 1700003600, none) :=
  ⟨rfl, parseTokenTstamp_expiration sampleLib tokenBoth
    ⟨⟨.ok (some (Time.Unix 1700003600)), .ok (some (Time.Unix 1700000000))⟩⟩
    (Time.Unix 1700003600) rfl rfl⟩

/-- C8 (malformed token). For a token that does not parse, or whose expiration claim
cannot be read, or that has no expiration claim and whose not-before claim is absent or
cannot be read, `parseTokenTstamp` returns the zero instant and an error. -/
theorem parseTokenTstamp_malformed (L : Lib) (tokenString : String)
    (h : (∃ err, L.ParseUnverified tokenString = .error err) ∨
      ∃ token, L.ParseUnverified tokenString = .ok token ∧
        ((∃ err, token.Claims.GetExpirationTime = .error err) ∨
         (token.Claims.GetExpirationTime = .ok none ∧
           ((∃ err, token.Claims.GetNotBefore = .error err) ∨
             token.Claims.GetNotBefore = .ok none)))) :
    ∃ err, parseTokenTstamp L tokenString = .ret (Time.zero, some err) := by
  rcases h with ⟨err, hp⟩ | ⟨token, hp, ⟨err, he⟩ | ⟨he, ⟨err, hn⟩ | hn⟩⟩
  · exact ⟨err, by simp [parseTokenTstamp, hp]⟩
  · exact ⟨err, by simp [parseTokenTstamp, hp, he]⟩
  · exact ⟨err, by simp [parseTokenTstamp, hp, he, hn]⟩
  · exact ⟨Error.New "invalid token", by simp [parseTokenTstamp, hp, he, hn]⟩

/-- An instance of `parseTokenTstamp_malformed`: the sample token that has neither
claim. -/
theorem parseTokenTstamp_malformed_witness :
    sampleLib.ParseUnverified tokenNeither = .ok ⟨⟨.ok none, .ok none⟩⟩ ∧
    ∃ err, parseTokenTstamp sampleLib tokenNeither = .ret (Time.zero, some err) :=
  ⟨rfl, parseTokenTstamp_malformed sampleLib tokenNeither
    (Or.inr ⟨⟨⟨.ok none, .ok none⟩⟩, rfl, Or.inr ⟨rfl, Or.inr rfl⟩⟩)⟩

/-! ## Lemmas on options and on single exchanges -/

/-- The variables of `setRequestParams` after one more option. -/
theorem requestVars_append (L : Lib) (c : client) (baseURL : URL) (path : String)
    (pre : List ClientOption) (o : ClientOption) :
    requestVars L c baseURL path (pre ++ [o]) =
      applyRequestOption (requestVars L c baseURL path pre) o := by
  simp [requestVars, List.foldl_append]

/-- Options other than `disableAutoUpdatingTokenOption` leave `updateToken` as it is. -/
theorem foldl_applyRequestOption_updateToken (opts : List ClientOption) (p : RequestVars)
    (h : ∀ v, ClientOption.disableAutoUpdatingTokenOption v ∉ opts) :
    (opts.foldl applyRequestOption p).updateToken = p.updateToken := by
  induction opts generalizing p with
  | nil => rfl
  | cons o rest ih =>
    have hrest : ∀ v, ClientOption.disableAutoUpdatingTokenOption v ∉ rest :=
      fun v hv => h v (List.mem_cons_of_mem _ hv)
    rw [List.foldl_cons, ih _ hrest]
    cases o with
    | disableAutoUpdatingTokenOption v => exact absurd (List.mem_cons_self _ _) (h v)
    | _ => rfl

/-- With `shouldAuth = true` and `updateToken` set, `setRequestParams` runs `InitAuth`
first and leaves client and world as `InitAuth` left them. -/
theorem setRequestParams_true_runs (L : Lib) (ctx : Context) (c : client) (w : World)
    (body : Option String) (method path : String) (opts : List ClientOption) (baseURL : URL)
    (hb : c.baseURL = some baseURL)
    (hu : (requestVars L c baseURL path opts).updateToken = true) :
    (setRequestParams L ctx c w body method path true opts).c = (InitAuth L ctx c w []).c ∧
    (setRequestParams L ctx c w body method path true opts).w = (InitAuth L ctx c w []).w := by
  rw [setRequestParams]
  simp only [hb, hu, Bool.and_self, dite_true]
  rcases InitAuth L ctx c w [] with ⟨c1, w1, out⟩
  rcases out with ⟨_ | err⟩ | _
  · simp only []
    unfold newRequest
    repeat' split
    all_goals exact ⟨rfl, rfl⟩
  · exact ⟨rfl, rfl⟩
  · exact ⟨rfl, rfl⟩

/-- With `updateToken` unset, `setRequestParams` only builds the request. -/
theorem setRequestParams_skips (L : Lib) (ctx : Context) (c : client) (w : World)
    (body : Option String) (method path : String) (shouldAuth : Bool)
    (opts : List ClientOption)
    (hu : ∀ baseURL, c.baseURL = some baseURL →
      (requestVars L c baseURL path opts).updateToken = false) :
    (setRequestParams L ctx c w body method path shouldAuth opts).c = c ∧
    (setRequestParams L ctx c w body method path shouldAuth opts).w = w := by
  rw [setRequestParams]
  cases hb : c.baseURL with
  | none => exact ⟨rfl, rfl⟩
  | some baseURL =>
    simp only [hu baseURL hb, Bool.false_and, Bool.false_eq_true, dite_false]
    unfold newRequest
    repeat' split
    all_goals exact ⟨rfl, rfl⟩

/-- One call of `Auth` reads no clock, and the request it sends, if any, has the headers
of the options and nothing else. -/
theorem Auth_quiet (L : Lib) (ctx : Context) (c : client) (w : World)
    (opts : List ClientOption) :
    (Auth L ctx c w opts).w.reads = w.reads ∧
    ((Auth L ctx c w opts).w.sent = w.sent ∨
      ∃ baseURL u, c.baseURL = some baseURL ∧ (requestVars L c baseURL "/auth" opts).u = some u ∧
        (Auth L ctx c w opts).w.sent = w.sent ++
          [{ ctx := ctx, Method := MethodPost, URL := u.str, Body := some (authBody L c),
             Header := setHeaders L [] (requestVars L c baseURL "/auth" opts).customHd }]) := by
  rw [Auth]
  simp only [setRequestParams_false]
  cases hb : c.baseURL with
  | none => simp
  | some baseURL =>
    simp only [newRequest]
    cases hu : (requestVars L c baseURL "/auth" opts).u with
    | none => simp
    | some u =>
      simp only []
      cases he : L.NewRequestError ctx MethodPost u.str with
      | some err => simp
      | none =>
        simp only [httpDo]
        cases hcl : (requestVars L c baseURL "/auth" opts).cl with
        | none => simp
        | some cl =>
          simp only []
          cases hdo : cl.Do w.sent _ with
          | error err => simp [hu]
          | ok res =>
            simp only [Bool.not_true, Bool.false_eq_true, if_false]
            cases hbody : res.Body with
            | error err => simp [hu]
            | ok body =>
              simp only []
              cases hum : (L.UnmarshalAuth body {}).2 with
              | some err => simp [hu]
              | none =>
                simp only []
                repeat' split
                all_goals simp [hu]

/-- One call of `RefreshToken` reads no clock, and the request it sends, if any, has the
headers of the options and nothing else. -/
theorem RefreshToken_quiet (L : Lib) (ctx : Context) (c : client) (w : World)
    (opts : List ClientOption) :
    (RefreshToken L ctx c w opts).w.reads = w.reads ∧
    ((RefreshToken L ctx c w opts).w.sent = w.sent ∨
      ∃ baseURL u, c.baseURL = some baseURL ∧
        (requestVars L c baseURL "/refresh-token" opts).u = some u ∧
        (RefreshToken L ctx c w opts).w.sent = w.sent ++
          [{ ctx := ctx, Method := MethodPost, URL := u.str,
             Body := some (refreshTokenBody L c),
             Header := setHeaders L []
               (requestVars L c baseURL "/refresh-token" opts).customHd }]) := by
  rw [RefreshToken]
  simp only [setRequestParams_false]
  cases hb : c.baseURL with
  | none => simp
  | some baseURL =>
    simp only [newRequest]
    cases hu : (requestVars L c baseURL "/refresh-token" opts).u with
    | none => simp
    | some u =>
      simp only []
      cases he : L.NewRequestError ctx MethodPost u.str with
      | some err => simp
      | none =>
        simp only [httpDo]
        cases hcl : (requestVars L c baseURL "/refresh-token" opts).cl with
        | none => simp
        | some cl =>
          simp only []
          cases hdo : cl.Do w.sent _ with
          | error err => simp [hu]
          | ok res =>
            simp only [Bool.not_true, Bool.false_eq_true, if_false]
            cases hbody : res.Body with
            | error err => simp [hu]
            | ok body =>
              simp only []
              cases hum : (L.UnmarshalRefreshToken body {}).2 with
              | some err => simp [hu]
              | none =>
                simp only []
                split <;> simp [hu]

theorem renewalWorld_reads (c : client) (w : World) :
    (renewalWorld c w).reads = w.reads + 2 := by
  simp [renewalWorld, timeNow]

theorem authWorld_reads (c : client) (w : World) : (authWorld c w).reads = w.reads + 2 := by
  simp [authWorld, renewalWorld_reads]

/-- The clock readings of one `InitAuth`: one on the fast path, two otherwise. -/
theorem InitAuth_reads (L : Lib) (ctx : Context) (c : client) (w : World)
    (opts : List ClientOption) :
    (InitAuth L ctx c w opts).w.reads = w.reads + 1 ∨
    (InitAuth L ctx c w opts).w.reads = w.reads + 2 := by
  cases hA : c.accessTokenExpiresAt.After (w.clock w.reads) with
  | true =>
    rw [InitAuth_fast_branch L ctx c w opts hA]
    exact Or.inl rfl
  | false =>
    right
    cases hR : c.refreshTokenExpiresAt.After (w.clock (w.reads + 1)) with
    | true =>
      rw [InitAuth_refresh_branch L ctx c w opts hA hR]
      have hq := (RefreshToken_quiet L ctx c (renewalWorld c w) opts).1
      rcases hr0 : RefreshToken L ctx c (renewalWorld c w) opts with ⟨c1, w2, out⟩
      rw [hr0, renewalWorld_reads] at hq
      have hr : w2.reads = w.reads + 2 := hq
      rcases out with ⟨err | res⟩ | _
      · exact hr
      · simp only []
        rcases parseTokenTstamp L res.Data.AccessToken with ⟨t, err⟩ | _
        · cases err <;> simpa using hr
        · exact hr
      · exact hr
    | false =>
      rw [InitAuth_auth_branch L ctx c w opts hA hR]
      have hq := (Auth_quiet L ctx c (authWorld c w) opts).1
      rcases hr0 : Auth L ctx c (authWorld c w) opts with ⟨c1, w3, out⟩
      rw [hr0, authWorld_reads] at hq
      have hr : w3.reads = w.reads + 2 := hq
      rcases out with ⟨err | res⟩ | _
      · exact hr
      · simp only []
        rcases parseTokenTstamp L res.Data.AccessToken with ⟨t, err⟩ | _
        · cases err with
          | some e => exact hr
          | none =>
            simp only []
            rcases parseTokenTstamp L res.Data.RefreshToken with ⟨t2, err2⟩ | _
            · cases err2 <;> simpa using hr
            · exact hr
        · exact hr
      · exact hr

/-- The calls of one `InitAuth`: none, one of `RefreshToken`, or one of `Auth`. -/
theorem InitAuth_calls (L : Lib) (ctx : Context) (c : client) (w : World)
    (opts : List ClientOption) :
    (InitAuth L ctx c w opts).w.calls = w.calls ∨
    (InitAuth L ctx c w opts).w.calls = w.calls ++ [Call.RefreshToken] ∨
    (InitAuth L ctx c w opts).w.calls = w.calls ++ [Call.Auth] := by
  cases hA : c.accessTokenExpiresAt.After (w.clock w.reads) with
  | true =>
    rw [InitAuth_fast_branch L ctx c w opts hA]
    exact Or.inl rfl
  | false =>
    right
    cases hR : c.refreshTokenExpiresAt.After (w.clock (w.reads + 1)) with
    | true =>
      left
      rw [(InitAuth_refresh_world L ctx c w opts hA hR).2]
      simpa using (RefreshToken_frame L ctx c (renewalWorld c w) opts).2.1
    | false =>
      right
      rw [(InitAuth_auth_world L ctx c w opts hA hR).2]
      simpa using (Auth_frame L ctx c (authWorld c w) opts).2.1

/-- The requests of one `InitAuth`: none or one. -/
theorem InitAuth_sent (L : Lib) (ctx : Context) (c : client) (w : World)
    (opts : List ClientOption) :
    (InitAuth L ctx c w opts).w.sent = w.sent ∨
    ∃ q, (InitAuth L ctx c w opts).w.sent = w.sent ++ [q] := by
  cases hA : c.accessTokenExpiresAt.After (w.clock w.reads) with
  | true =>
    rw [InitAuth_fast_branch L ctx c w opts hA]
    exact Or.inl rfl
  | false =>
    cases hR : c.refreshTokenExpiresAt.After (w.clock (w.reads + 1)) with
    | true =>
      rw [(InitAuth_refresh_world L ctx c w opts hA hR).1]
      rcases (RefreshToken_frame L ctx c (renewalWorld c w) opts).2.2 with h | ⟨q, h, _⟩
      · exact Or.inl (by simpa using h)
      · exact Or.inr ⟨q, by simpa using h⟩
    | false =>
      rw [(InitAuth_auth_world L ctx c w opts hA hR).1]
      rcases (Auth_frame L ctx c (authWorld c w) opts).2.2 with h | ⟨q, h, _⟩
      · exact Or.inl (by simpa using h)
      · exact Or.inr ⟨q, by simpa using h⟩

/-- When the request can be sent and the server answers it with status 200 and a body
that decodes, `RefreshToken` sends that one request and returns the decoded response. -/
theorem RefreshToken_ok_of_response (L : Lib) (ctx : Context) (c : client) (w : World)
    (opts : List ClientOption) (baseURL u : URL) (cl : HttpClient) (response : Response)
    (body : String)
    (hb : c.baseURL = some baseURL)
    (hu : (requestVars L c baseURL "/refresh-token" opts).u = some u)
    (hcl : (requestVars L c baseURL "/refresh-token" opts).cl = some cl)
    (he : L.NewRequestError ctx MethodPost u.str = none)
    (hdo : cl.Do w.sent
      { ctx := ctx, Method := MethodPost, URL := u.str, Body := some (refreshTokenBody L c),
        Header := setHeaders L [] (requestVars L c baseURL "/refresh-token" opts).customHd }
      = .ok response)
    (hs : response.StatusCode = StatusOK)
    (hbody : response.Body = .ok body)
    (hum : (L.UnmarshalRefreshToken body {}).2 = none) :
    (RefreshToken L ctx c w opts).w.sent = w.sent ++
      [{ ctx := ctx, Method := MethodPost, URL := u.str, Body := some (refreshTokenBody L c),
         Header := setHeaders L [] (requestVars L c baseURL "/refresh-token" opts).customHd }] ∧
    (RefreshToken L ctx c w opts).out =
      .ret (.ok (L.UnmarshalRefreshToken body {}).1.RefreshTokenResp) := by
  rw [RefreshToken]
  simp only [setRequestParams_false, hb, newRequest, hu, he, httpDo, hcl]
  simp only [Bool.false_eq_true, if_false] at hdo ⊢
  simp [hdo, hbody, hum, hs]

/-- When `Auth` returns a response, it sent one authentication request, the server
answered it with status 200 and a body that decodes, and the response returned is the
decoded one. -/
theorem Auth_ok_inv (L : Lib) (ctx : Context) (c : client) (w : World)
    (opts : List ClientOption) (res : AuthResp)
    (hout : (Auth L ctx c w opts).out = .ret (.ok res)) :
    ∃ (q : Request) (cl : HttpClient) (response : Response) (body : String),
      (Auth L ctx c w opts).w.sent = w.sent ++ [q] ∧
      IsAuthRequest L ctx c opts q ∧
      cl.Do w.sent q = .ok response ∧ response.StatusCode = StatusOK ∧
      response.Body = .ok body ∧ (L.UnmarshalAuth body {}).2 = none ∧
      (L.UnmarshalAuth body {}).1.AuthResp = res := by
  rw [Auth] at hout ⊢
  simp only [setRequestParams_false] at hout ⊢
  cases hb : c.baseURL with
  | none => simp [hb] at hout
  | some baseURL =>
    simp only [hb, newRequest] at hout ⊢
    cases hu : (requestVars L c baseURL "/auth" opts).u with
    | none => simp [hu] at hout
    | some u =>
      simp only [hu] at hout ⊢
      cases he : L.NewRequestError ctx MethodPost u.str with
      | some err => simp [he] at hout
      | none =>
        simp only [he, httpDo] at hout ⊢
        cases hcl : (requestVars L c baseURL "/auth" opts).cl with
        | none => simp [hcl] at hout
        | some cl =>
          simp only [hcl, Bool.false_eq_true, if_false] at hout ⊢
          have hq : IsAuthRequest L ctx c opts
              { ctx := ctx, Method := MethodPost, URL := u.str,
                Body := some (authBody L c),
                Header := setHeaders L [] (requestVars L c baseURL "/auth" opts).customHd } :=
            ⟨rfl, rfl, rfl, baseURL, hb, hu⟩
          cases hdo : cl.Do w.sent
              { ctx := ctx, Method := MethodPost, URL := u.str,
                Body := some (authBody L c),
                Header := setHeaders L [] (requestVars L c baseURL "/auth" opts).customHd } with
          | error err => simp [hdo] at hout
          | ok response =>
            simp only [hdo, Bool.not_true, Bool.false_eq_true, if_false] at hout ⊢
            cases hbody : response.Body with
            | error err => simp [hbody] at hout
            | ok body =>
              simp only [hbody] at hout ⊢
              cases hum : (L.UnmarshalAuth body {}).2 with
              | some err => simp [hum] at hout
              | none =>
                simp only [hum] at hout ⊢
                by_cases hs : response.StatusCode = StatusOK
                · simp only [hs, if_true] at hout ⊢
                  simp only [Outcome.ret.injEq, Except.ok.injEq] at hout
                  exact ⟨_, cl, response, body, rfl, hq, hdo, hs, hbody, hum, hout⟩
                · simp only [hs, if_false] at hout
                  repeat' split at hout
                  all_goals simp at hout

/-! ## More runs of the sample environment -/

/-- A run of `RefreshToken` for a client that holds no refresh token, against a server
that answers 200: the exchange is made and its response returned. -/
theorem RefreshToken_sample_no_token :
    (RefreshToken sampleLib sampleCtx (sessionEmpty (serverReplying 200 "200 OK" bodyRefreshOk))
        (sampleWorld sampleNow) []).out
      = .ret (.ok { Data := { AccessToken := tokenExp } }) ∧
    (RefreshToken sampleLib sampleCtx (sessionEmpty (serverReplying 200 "200 OK" bodyRefreshOk))
        (sampleWorld sampleNow) []).w.sent.length = 1 := by
  rw [RefreshToken]
  simp [setRequestParams_false, newRequest, httpDo, sessionEmpty, emptyClient, sampleWorld,
    requestVars, sampleLib, serverReplying, sampleUnmarshalRefreshToken, bodyRefreshOk,
    StatusOK, MethodPost, setHeaders, APIV2BaseURL]

/-- A run of `Auth` for a client that never authenticated, against a server that hands
out two tokens: the response is returned and the client is the one before the call. -/
theorem Auth_sample_first :
    (Auth sampleLib sampleCtx (sessionEmpty (serverReplying 200 "200 OK" bodyAuthOk))
        (sampleWorld sampleNow) []).out
      = .ret (.ok { Data := { AccessToken := tokenExp, RefreshToken := tokenRefresh } }) ∧
    (Auth sampleLib sampleCtx (sessionEmpty (serverReplying 200 "200 OK" bodyAuthOk))
        (sampleWorld sampleNow) []).c = sessionEmpty (serverReplying 200 "200 OK" bodyAuthOk) := by
  rw [Auth]
  simp [setRequestParams_false, newRequest, httpDo, sessionEmpty, emptyClient, sampleWorld,
    requestVars, sampleLib, serverReplying, sampleUnmarshalAuth, bodyAuthOk,
    StatusOK, MethodPost, setHeaders, APIV2BaseURL]

/-- A run of `setRequestParams` for a protected call on a valid session: the request is
built with the bearer token and nothing is exchanged. -/
theorem setRequestParams_sample_valid :
    setRequestParams sampleLib sampleCtx sessionValid (sampleWorld sampleNow) none MethodGet
        "/electricity/tokens" true []
      = ⟨sessionValid, (timeNow (sampleWorld sampleNow)).2,
          .ret (.ok (some serverDown,
            { ctx := sampleCtx, Method := MethodGet,
              URL := "https://sb-api.efashe.com/rw/v2/electricity/tokens", Body := none,
              Header := [("Authorization", ["Bearer " ++ tokenExp])] }))⟩ := by
  have hfast : InitAuth sampleLib sampleCtx sessionValid (sampleWorld sampleNow) []
      = ⟨sessionValid, (timeNow (sampleWorld sampleNow)).2, .ret none⟩ :=
    InitAuth_fast_branch sampleLib sampleCtx sessionValid (sampleWorld sampleNow) [] (by decide)
  have hdrop : "/electricity/tokens".drop 1 = "electricity/tokens" := by decide
  rw [setRequestParams]
  simp only [hfast]
  simp [newRequest, sessionValid, sampleClient, requestVars, sampleLib, setHeaders,
    addBearerToken, Header.Set, Header.Del, APIV2BaseURL, MethodGet, hdrop]

/-! ## `RefreshToken` and `Auth` called directly -/

/-- C11, as the code has it: a run of `RefreshToken` for a client whose `refreshToken`
is the empty string that does not fail: the exchange is made and the response of the
server is returned. -/
theorem RefreshToken_without_session :
    (sessionEmpty (serverReplying 200 "200 OK" bodyRefreshOk)).refreshToken = "" ∧
    (RefreshToken sampleLib sampleCtx (sessionEmpty (serverReplying 200 "200 OK" bodyRefreshOk))
        (sampleWorld sampleNow) []).out
      = .ret (.ok { Data := { AccessToken := tokenExp } }) :=
  ⟨rfl, RefreshToken_sample_no_token.1⟩

/-- C11, amended. `RefreshToken` does not look at whether a refresh token is cached. For
a client whose `refreshToken` is the empty string it records its call, and when the
request can be built and handed to a client it sends the POST for "/refresh-token" with
the empty string quoted in the body; when the server answers that request with status
200 and a body that decodes, `RefreshToken` returns the decoded response, not an error. -/
theorem RefreshToken_empty_token (L : Lib) (ctx : Context) (c : client) (w : World)
    (opts : List ClientOption) (baseURL u : URL) (cl : HttpClient) (response : Response)
    (body : String)
    (h : c.refreshToken = "")
    (hb : c.baseURL = some baseURL)
    (hu : (requestVars L c baseURL "/refresh-token" opts).u = some u)
    (hcl : (requestVars L c baseURL "/refresh-token" opts).cl = some cl)
    (he : L.NewRequestError ctx MethodPost u.str = none)
    (hdo : cl.Do w.sent
      { ctx := ctx, Method := MethodPost, URL := u.str,
        Body := some ("\x7b\"data\": \x7b\"refreshToken\": " ++ L.Quote "" ++ "\x7d \x7d"),
        Header := setHeaders L [] (requestVars L c baseURL "/refresh-token" opts).customHd }
      = .ok response)
    (hs : response.StatusCode = StatusOK)
    (hbody : response.Body = .ok body)
    (hum : (L.UnmarshalRefreshToken body {}).2 = none) :
    (RefreshToken L ctx c w opts).w.calls = w.calls ++ [Call.RefreshToken] ∧
    (RefreshToken L ctx c w opts).w.sent = w.sent ++
      [{ ctx := ctx, Method := MethodPost, URL := u.str,
         Body := some ("\x7b\"data\": \x7b\"refreshToken\": " ++ L.Quote "" ++ "\x7d \x7d"),
         Header := setHeaders L [] (requestVars L c baseURL "/refresh-token" opts).customHd }] ∧
    (RefreshToken L ctx c w opts).out =
      .ret (.ok (L.UnmarshalRefreshToken body {}).1.RefreshTokenResp) := by
  have hbodyEq : refreshTokenBody L c
      = "\x7b\"data\": \x7b\"refreshToken\": " ++ L.Quote "" ++ "\x7d \x7d" := by
    simp [refreshTokenBody, h]
  rw [← hbodyEq] at hdo ⊢
  exact ⟨(RefreshToken_frame L ctx c w opts).2.1,
    RefreshToken_ok_of_response L ctx c w opts baseURL u cl response body hb hu hcl he hdo hs
      hbody hum⟩

/-- An instance of `RefreshToken_empty_token`: the client that never authenticated,
against a server that answers 200. -/
theorem RefreshToken_empty_token_witness :
    (sessionEmpty (serverReplying 200 "200 OK" bodyRefreshOk)).refreshToken = "" ∧
    (RefreshToken sampleLib sampleCtx (sessionEmpty (serverReplying 200 "200 OK" bodyRefreshOk))
        (sampleWorld sampleNow) []).w.calls = [Call.RefreshToken] ∧
    (RefreshToken sampleLib sampleCtx (sessionEmpty (serverReplying 200 "200 OK" bodyRefreshOk))
        (sampleWorld sampleNow) []).out
      = .ret (.ok (sampleLib.UnmarshalRefreshToken bodyRefreshOk {}).1.RefreshTokenResp) :=
  have h := RefreshToken_empty_token sampleLib sampleCtx
    (sessionEmpty (serverReplying 200 "200 OK" bodyRefreshOk)) (sampleWorld sampleNow) []
    ⟨APIV2BaseURL⟩ (sampleLib.JoinPath ⟨APIV2BaseURL⟩ "/refresh-token")
    (serverReplying 200 "200 OK" bodyRefreshOk)
    { StatusCode := 200, Status := "200 OK", Body := .ok bodyRefreshOk } bodyRefreshOk
    rfl rfl rfl rfl rfl rfl rfl rfl rfl
  ⟨rfl, h.1, h.2.2⟩

/-- C12, as the code has it: a run of `Auth` that returns the two tokens of the response
and leaves the client without them. -/
theorem Auth_does_not_update :
    (Auth sampleLib sampleCtx (sessionEmpty (serverReplying 200 "200 OK" bodyAuthOk))
        (sampleWorld sampleNow) []).out
      = .ret (.ok { Data := { AccessToken := tokenExp, RefreshToken := tokenRefresh } }) ∧
    (Auth sampleLib sampleCtx (sessionEmpty (serverReplying 200 "200 OK" bodyAuthOk))
        (sampleWorld sampleNow) []).c.accessToken ≠ tokenExp ∧
    (Auth sampleLib sampleCtx (sessionEmpty (serverReplying 200 "200 OK" bodyAuthOk))
        (sampleWorld sampleNow) []).c.accessTokenExpiresAt = Time.zero := by
  obtain ⟨h1, h2⟩ := Auth_sample_first
  refine ⟨h1, ?_, ?_⟩
  · rw [h2]; simp [sessionEmpty, emptyClient, tokenExp]
  · rw [h2]; rfl

/-- C12, amended. A call of `Auth` that returns a response, in any client state, has made
one "/auth" exchange (one call recorded, one POST sent that carries `apiKey` and
`apiSecret`, answered with status 200), returns the decoded authentication response to
the caller, and leaves the client as it was: the tokens and expiry instants of the client
are not touched. -/
theorem Auth_returns_response (L : Lib) (ctx : Context) (c : client) (w : World)
    (opts : List ClientOption) (res : AuthResp)
    (hout : (Auth L ctx c w opts).out = .ret (.ok res)) :
    (Auth L ctx c w opts).c = c ∧
    (Auth L ctx c w opts).w.calls = w.calls ++ [Call.Auth] ∧
    ∃ (q : Request) (cl : HttpClient) (response : Response) (body : String),
      (Auth L ctx c w opts).w.sent = w.sent ++ [q] ∧
      IsAuthRequest L ctx c opts q ∧
      cl.Do w.sent q = .ok response ∧ response.StatusCode = StatusOK ∧
      response.Body = .ok body ∧ (L.UnmarshalAuth body {}).2 = none ∧
      (L.UnmarshalAuth body {}).1.AuthResp = res :=
  ⟨(Auth_frame L ctx c w opts).1, (Auth_frame L ctx c w opts).2.1,
    Auth_ok_inv L ctx c w opts res hout⟩

/-- An instance of `Auth_returns_response`: a client that never authenticated, against a
server that hands out two tokens. -/
theorem Auth_returns_response_witness :
    (Auth sampleLib sampleCtx (sessionEmpty (serverReplying 200 "200 OK" bodyAuthOk))
        (sampleWorld sampleNow) []).out
      = .ret (.ok { Data := { AccessToken := tokenExp, RefreshToken := tokenRefresh } }) ∧
    (Auth sampleLib sampleCtx (sessionEmpty (serverReplying 200 "200 OK" bodyAuthOk))
        (sampleWorld sampleNow) []).c = sessionEmpty (serverReplying 200 "200 OK" bodyAuthOk) ∧
    (Auth sampleLib sampleCtx (sessionEmpty (serverReplying 200 "200 OK" bodyAuthOk))
        (sampleWorld sampleNow) []).w.calls = [Call.Auth] :=
  have h := Auth_returns_response sampleLib sampleCtx
    (sessionEmpty (serverReplying 200 "200 OK" bodyAuthOk)) (sampleWorld sampleNow) []
    { Data := { AccessToken := tokenExp, RefreshToken := tokenRefresh } } Auth_sample_first.1
  ⟨Auth_sample_first.1, h.1, h.2.1⟩

/-! ## Protected calls -/

/-- C13 (per-call bypass). When the options of a protected call end with
`WithDisableAutoUpdatingTokenOption(true)`, `setRequestParams` leaves the client and the
world as they are: `InitAuth` is not run (no clock reading, no call of `Auth` or
`RefreshToken`, no request), the session fields are unchanged and so is the stored
`autoUpdateToken`; the same holds for the protected call `ElectricityTokens` up to the
request it sends itself. A later protected call on the same client, with the flag stored
as true and no such option, runs `InitAuth`: its client and world are those `InitAuth`
leaves. -/
theorem setRequestParams_bypass (L : Lib) (ctx : Context) (c : client) (w : World)
    (body : Option String) (method path : String) (pre : List ClientOption) :
    (setRequestParams L ctx c w body method path true
        (pre ++ [WithDisableAutoUpdatingTokenOption true])).c = c ∧
    (setRequestParams L ctx c w body method path true
        (pre ++ [WithDisableAutoUpdatingTokenOption true])).w = w ∧
    (∀ (meterNo : String) (tokensCount : Int),
      (ElectricityTokens L ctx c w meterNo tokensCount
          (pre ++ [WithDisableAutoUpdatingTokenOption true])).c = c ∧
      (ElectricityTokens L ctx c w meterNo tokensCount
          (pre ++ [WithDisableAutoUpdatingTokenOption true])).w.calls = w.calls ∧
      (ElectricityTokens L ctx c w meterNo tokensCount
          (pre ++ [WithDisableAutoUpdatingTokenOption true])).w.reads = w.reads) ∧
    ∀ (baseURL : URL) (w2 : World) (body2 : Option String) (method2 path2 : String)
      (opts2 : List ClientOption),
      c.baseURL = some baseURL → c.autoUpdateToken = true →
      (∀ v, ClientOption.disableAutoUpdatingTokenOption v ∉ opts2) →
      (setRequestParams L ctx
          (setRequestParams L ctx c w body method path true
            (pre ++ [WithDisableAutoUpdatingTokenOption true])).c
          w2 body2 method2 path2 true opts2).c = (InitAuth L ctx c w2 []).c ∧
      (setRequestParams L ctx
          (setRequestParams L ctx c w body method path true
            (pre ++ [WithDisableAutoUpdatingTokenOption true])).c
          w2 body2 method2 path2 true opts2).w = (InitAuth L ctx c w2 []).w := by
  have hoff : ∀ (p : String) (baseURL : URL), c.baseURL = some baseURL →
      (requestVars L c baseURL p
        (pre ++ [WithDisableAutoUpdatingTokenOption true])).updateToken = false := by
    intro p baseURL _
    rw [requestVars_append]
    rfl
  obtain ⟨hc, hw⟩ := setRequestParams_skips L ctx c w body method path true
    (pre ++ [WithDisableAutoUpdatingTokenOption true]) (hoff path)
  refine ⟨hc, hw, ?_, ?_⟩
  · intro meterNo tokensCount
    unfold ElectricityTokens
    simp only []
    split
    · exact ⟨rfl, rfl, rfl⟩
    · obtain ⟨hc1, hw1⟩ := setRequestParams_skips L ctx c w none MethodGet
        "/electricity/tokens" true (pre ++ [WithDisableAutoUpdatingTokenOption true])
        (hoff "/electricity/tokens")
      rcases hr : setRequestParams L ctx c w none MethodGet "/electricity/tokens" true
        (pre ++ [WithDisableAutoUpdatingTokenOption true]) with ⟨c1, w1, out⟩
      rw [hr] at hc1 hw1
      simp only [] at hc1 hw1
      subst hc1 hw1
      rcases out with ⟨err | ⟨cl, req⟩⟩ | _
      · exact ⟨rfl, rfl, rfl⟩
      · simp only []
        cases L.ParseURL (electricityTokensURL L req.URL (L.TrimSpace meterNo)
            (numTokens tokensCount)) with
        | error e => exact ⟨rfl, rfl, rfl⟩
        | ok u =>
          simp only [httpDo]
          cases cl with
          | none => exact ⟨rfl, rfl, rfl⟩
          | some cl =>
            simp only []
            cases cl.Do w1.sent _ with
            | error e => exact ⟨rfl, rfl, rfl⟩
            | ok response =>
              simp only [Bool.not_true, Bool.false_eq_true, if_false]
              cases response.Body with
              | error e => exact ⟨rfl, rfl, rfl⟩
              | ok body =>
                simp only []
                cases (L.UnmarshalElectricityToken body {}).2 with
                | some e => exact ⟨rfl, rfl, rfl⟩
                | none =>
                  simp only []
                  split <;> simp
      · exact ⟨rfl, rfl, rfl⟩
  · intro baseURL w2 body2 method2 path2 opts2 hb hauto hno
    rw [hc]
    apply setRequestParams_true_runs L ctx c w2 body2 method2 path2 opts2 baseURL hb
    unfold requestVars
    rw [foldl_applyRequestOption_updateToken opts2 _ hno]
    exact hauto

/-- An instance of `setRequestParams_bypass`: a session whose access token has expired.
With the option nothing is exchanged; without it the next call renews as `InitAuth`
does. -/
theorem setRequestParams_bypass_witness :
    (setRequestParams sampleLib sampleCtx (sessionAccessExpired serverDown)
        (sampleWorld sampleNow) none MethodGet "/balance" true
        [WithDisableAutoUpdatingTokenOption true]).c = sessionAccessExpired serverDown ∧
    (setRequestParams sampleLib sampleCtx (sessionAccessExpired serverDown)
        (sampleWorld sampleNow) none MethodGet "/balance" true
        [WithDisableAutoUpdatingTokenOption true]).w.calls = [] ∧
    (setRequestParams sampleLib sampleCtx
        (setRequestParams sampleLib sampleCtx (sessionAccessExpired serverDown)
          (sampleWorld sampleNow) none MethodGet "/balance" true
          [WithDisableAutoUpdatingTokenOption true]).c
        (sampleWorld sampleNow) none MethodGet "/balance" true []).w
      = (InitAuth sampleLib sampleCtx (sessionAccessExpired serverDown)
          (sampleWorld sampleNow) []).w :=
  have h := setRequestParams_bypass sampleLib sampleCtx (sessionAccessExpired serverDown)
    (sampleWorld sampleNow) none MethodGet "/balance" []
  ⟨h.1, congrArg World.calls h.2.1,
    (h.2.2.2 ⟨APIV2BaseURL⟩ (sampleWorld sampleNow) none MethodGet "/balance" [] rfl rfl
      (fun _ hv => absurd hv (List.not_mem_nil _))).2⟩

/-! ## Construction -/

/-- C14 (validation at construction). With an empty `apiKey`, or else an empty
`apiSecret`, `NewClient` returns no client and the `ValidationError` "api key not
provided", respectively "api secret not provided", whatever the options are, and the
world is untouched: no option is applied, no clock is read and nothing is exchanged. -/
theorem NewClient_validation (L : Lib) (ctx : Context) (w : World) (apiKey apiSecret : String)
    (opts : List ClientOption) (h : apiKey = "" ∨ apiSecret = "") :
    NewClient L ctx w apiKey apiSecret opts =
      (w, .ret (.error (Error.ValidationError
        (if apiKey = "" then "api key not provided" else "api secret not provided")))) := by
  unfold NewClient
  by_cases hk : apiKey = ""
  · simp [hk]
  · have hs : apiSecret = "" := h.resolve_left hk
    simp [hk, hs]

/-- An instance of `NewClient_validation`: a key and no secret. -/
theorem NewClient_validation_witness :
    ("k" = "" ∨ "" = "") ∧
    NewClient sampleLib sampleCtx (sampleWorld sampleNow) "k" ""
        [WithCustomClientOption (some (serverReplying 200 "200 OK" bodyAuthOk))]
      = (sampleWorld sampleNow,
          .ret (.error (Error.ValidationError "api secret not provided"))) :=
  ⟨Or.inr rfl,
    NewClient_validation sampleLib sampleCtx (sampleWorld sampleNow) "k" ""
      [WithCustomClientOption (some (serverReplying 200 "200 OK" bodyAuthOk))] (Or.inr rfl)⟩

/-! ## One exchange, no re-entry -/

/-- C15 (single exchange, no re-entry). `Auth` and `RefreshToken` build their request
with `shouldAuth = false`: whatever the client and the options, a call of either reads
no clock (`InitAuth`, which reads it first thing, is not run), leaves the client as it
is, records itself only, and the request it sends, if any, has the headers of the
options and nothing else (no bearer token is attached). Hence one `InitAuth`, which is a
total function, reads the clock once or twice, makes no call, or one call of
`RefreshToken`, or one call of `Auth`, never both, and sends at most one request. -/
theorem InitAuth_single_exchange (L : Lib) (ctx : Context) (c : client) (w : World)
    (opts : List ClientOption) :
    ((Auth L ctx c w opts).c = c ∧ (Auth L ctx c w opts).w.reads = w.reads ∧
      (Auth L ctx c w opts).w.calls = w.calls ++ [Call.Auth] ∧
      ((Auth L ctx c w opts).w.sent = w.sent ∨
        ∃ baseURL u, c.baseURL = some baseURL ∧
          (requestVars L c baseURL "/auth" opts).u = some u ∧
          (Auth L ctx c w opts).w.sent = w.sent ++
            [{ ctx := ctx, Method := MethodPost, URL := u.str, Body := some (authBody L c),
               Header := setHeaders L [] (requestVars L c baseURL "/auth" opts).customHd }])) ∧
    ((RefreshToken L ctx c w opts).c = c ∧ (RefreshToken L ctx c w opts).w.reads = w.reads ∧
      (RefreshToken L ctx c w opts).w.calls = w.calls ++ [Call.RefreshToken] ∧
      ((RefreshToken L ctx c w opts).w.sent = w.sent ∨
        ∃ baseURL u, c.baseURL = some baseURL ∧
          (requestVars L c baseURL "/refresh-token" opts).u = some u ∧
          (RefreshToken L ctx c w opts).w.sent = w.sent ++
            [{ ctx := ctx, Method := MethodPost, URL := u.str,
               Body := some (refreshTokenBody L c),
               Header := setHeaders L []
                 (requestVars L c baseURL "/refresh-token" opts).customHd }])) ∧
    ((InitAuth L ctx c w opts).w.reads = w.reads + 1 ∨
      (InitAuth L ctx c w opts).w.reads = w.reads + 2) ∧
    ((InitAuth L ctx c w opts).w.calls = w.calls ∨
      (InitAuth L ctx c w opts).w.calls = w.calls ++ [Call.RefreshToken] ∨
      (InitAuth L ctx c w opts).w.calls = w.calls ++ [Call.Auth]) ∧
    ((InitAuth L ctx c w opts).w.sent = w.sent ∨
      ∃ q, (InitAuth L ctx c w opts).w.sent = w.sent ++ [q]) :=
  ⟨⟨(Auth_frame L ctx c w opts).1, (Auth_quiet L ctx c w opts).1,
      (Auth_frame L ctx c w opts).2.1, (Auth_quiet L ctx c w opts).2⟩,
    ⟨(RefreshToken_frame L ctx c w opts).1, (RefreshToken_quiet L ctx c w opts).1,
      (RefreshToken_frame L ctx c w opts).2.1, (RefreshToken_quiet L ctx c w opts).2⟩,
    InitAuth_reads L ctx c w opts, InitAuth_calls L ctx c w opts, InitAuth_sent L ctx c w opts⟩

/-! ## `ElectricityTokens` -/

/-- C16 (request normalisation). When `meterNo` is empty once trimmed, `ElectricityTokens`
returns the `ValidationError` "meter number is required" with client and world
untouched: no renewal, no exchange. Otherwise the count put in the query is
`tokensCount` when `1 <= tokensCount <= 10` and 10 in every other case, so it lies
between 1 and 10: the request that `ElectricityTokens` hands to the client has the URL
parsed from `<url>?meterNo=<trimmed meterNo>&numTokens=<that count>`. -/
theorem ElectricityTokens_request (L : Lib) (ctx : Context) (c : client) (w : World)
    (meterNo : String) (tokensCount : Int) (opts : List ClientOption) :
    (L.TrimSpace meterNo = "" →
      ElectricityTokens L ctx c w meterNo tokensCount opts =
        ⟨c, w, .ret (.error (Error.ValidationError "meter number is required"))⟩) ∧
    (L.TrimSpace meterNo ≠ "" →
      numTokens tokensCount
          = (if 1 ≤ tokensCount ∧ tokensCount ≤ 10 then tokensCount else 10) ∧
      1 ≤ numTokens tokensCount ∧ numTokens tokensCount ≤ 10 ∧
      ∀ (c1 : client) (w1 : World) (cl : HttpClient) (req : Request) (u : URL),
        setRequestParams L ctx c w none MethodGet "/electricity/tokens" true opts
            = ⟨c1, w1, .ret (.ok (some cl, req))⟩ →
        L.ParseURL (req.URL ++ "?meterNo=" ++ L.TrimSpace meterNo ++ "&numTokens="
            ++ L.FormatInt (if 1 ≤ tokensCount ∧ tokensCount ≤ 10 then tokensCount else 10))
          = .ok u →
        (ElectricityTokens L ctx c w meterNo tokensCount opts).w.sent
          = w1.sent ++ [{ req with URL := u.str }]) := by
  have hn : numTokens tokensCount
      = (if 1 ≤ tokensCount ∧ tokensCount ≤ 10 then tokensCount else 10) := by
    unfold numTokens
    split_ifs <;> omega
  refine ⟨fun hm => ?_, fun hm => ⟨hn, ?_, ?_, ?_⟩⟩
  · unfold ElectricityTokens
    simp [hm]
  · rw [hn]; split_ifs <;> omega
  · rw [hn]; split_ifs <;> omega
  · intro c1 w1 cl req u hset hparse
    rw [← hn] at hparse
    unfold ElectricityTokens
    simp only [hm, if_false, hset, electricityTokensURL, hparse, httpDo]
    cases cl.Do w1.sent _ with
    | error e => rfl
    | ok response =>
      simp only [Bool.not_true, Bool.false_eq_true, if_false]
      cases response.Body with
      | error e => rfl
      | ok body =>
        simp only []
        cases (L.UnmarshalElectricityToken body {}).2 with
        | some e => rfl
        | none =>
          simp only []
          split <;> simp

/-- Two instances of `ElectricityTokens_request` on a valid session: a blank meter
number, and a count of zero, which goes out as 10. -/
theorem ElectricityTokens_request_witness :
    ElectricityTokens sampleLib sampleCtx sessionValid (sampleWorld sampleNow) "  " 3 []
      = ⟨sessionValid, sampleWorld sampleNow,
          .ret (.error (Error.ValidationError "meter number is required"))⟩ ∧
    (ElectricityTokens sampleLib sampleCtx sessionValid (sampleWorld sampleNow)
        " 04123456789 " 0 []).w.sent
      = [{ ctx := sampleCtx, Method := MethodGet,
           URL := "https://sb-api.efashe.com/rw/v2/electricity/tokens"
             ++ "?meterNo=04123456789&numTokens=10",
           Body := none, Header := [("Authorization", ["Bearer " ++ tokenExp])] }] :=
  ⟨(ElectricityTokens_request sampleLib sampleCtx sessionValid (sampleWorld sampleNow)
      "  " 3 []).1 rfl,
    ((ElectricityTokens_request sampleLib sampleCtx sessionValid (sampleWorld sampleNow)
      " 04123456789 " 0 []).2 (by decide)).2.2.2 _ _ _ _
      ⟨"https://sb-api.efashe.com/rw/v2/electricity/tokens"
        ++ "?meterNo=04123456789&numTokens=10"⟩
      setRequestParams_sample_valid rfl⟩

end Efashe
